import Mathlib

/-!
# Verification of the pie-menu-widget core

Shallow embedding of the repository's orbit-placement algorithm
(`useRepulsionAndOrbit`, two variants: `src/unnamed/part_002` and
`src/unnamed/part_003`) and of the pointer-drag controller
(`src/src/hooks/useDraggable.ts`, mouse-only, and `src/unnamed/part_001`,
unified mouse/touch), together with theorems settling the frozen claims.

JavaScript numbers are modelled as exact rationals (`ℚ`).  The `Math`
object (`Math.PI`, `Math.cos`, `Math.sin`) is an external collaborator of
the source code, so it is modelled as an explicit environment value of
type `JsMath`; theorems take the hypotheses on it that they need (for
example `JsMath.Bounded`, satisfied by the real trigonometric functions).
`undefined`/`NaN` propagation (relevant for the touch variant of the drag
controller) is modelled by `Option ℚ` with absorbing arithmetic.
-/

set_option maxHeartbeats 4000000

set_option maxRecDepth 40000

/-- A screen-space point `{x, y}` (origin top-left, y-down). -/
structure Point where
  x : ℚ
  y : ℚ
deriving DecidableEq, Repr

/-- Model of the JavaScript `Math` object as used by the source:
the constant `Math.PI` and the functions `Math.cos`, `Math.sin`. -/
structure JsMath where
  PI : ℚ
  cos : ℚ → ℚ
  sin : ℚ → ℚ

/-- The real `Math.cos` / `Math.sin` take values in `[-1, 1]`. -/
def JsMath.Bounded (M : JsMath) : Prop :=
  ∀ θ : ℚ, -1 ≤ M.cos θ ∧ M.cos θ ≤ 1 ∧ -1 ≤ M.sin θ ∧ M.sin θ ≤ 1

/-- The real `Math.cos` / `Math.sin` are 1-Lipschitz. -/
def JsMath.Lipschitz (M : JsMath) : Prop :=
  ∀ a b : ℚ, |M.cos a - M.cos b| ≤ |a - b| ∧ |M.sin a - M.sin b| ≤ |a - b|

/-- JavaScript's `%` operator on a nonnegative dividend and positive
divisor (the only way the source uses it, to normalize angles into
`[0, 2π)`): `a % b = a - b * floor (a / b)`. -/
def jsMod (a b : ℚ) : ℚ := a - b * (⌊a / b⌋ : ℚ)

/-- A maximal safe angular run `{start, end, length}` (the source's field
`end` is a Lean keyword, renamed `stop`). -/
structure SafeArc where
  start : ℚ
  stop : ℚ
  length : ℚ
deriving DecidableEq, Repr

/-- The inputs of `useRepulsionAndOrbit` (its `RepulsionOrbitOptions`
argument plus the `viewportSize` it reads from `window`). -/
structure RepulsionOrbitOptions where
  isOpen : Bool
  centerPosition : Point
  numItems : ℕ
  orbitRadius : ℚ
  itemSize : ℚ
  mainButtonSize : ℚ
  viewportWidth : ℚ
  viewportHeight : ℚ
deriving DecidableEq, Repr

/-- One placed item: offsets relative to the main button center plus the
angle in radians. -/
structure ItemPosition where
  x : ℚ
  y : ℚ
  angle : ℚ
deriving DecidableEq, Repr

/-- Comparison by angle, used for the final sort of the output. -/
def angleLE (a b : ItemPosition) : Prop := a.angle ≤ b.angle

instance : DecidableRel angleLE := fun a b => inferInstanceAs (Decidable (a.angle ≤ b.angle))

instance : IsTotal ItemPosition angleLE := ⟨fun a b => le_total a.angle b.angle⟩

instance : IsTrans ItemPosition angleLE := ⟨fun _ _ _ h h' => le_trans h h'⟩

/-- Comparison of arcs by start angle, used to sort the safe arcs. -/
def arcStartLE (a b : SafeArc) : Prop := a.start ≤ b.start

instance : DecidableRel arcStartLE := fun a b => inferInstanceAs (Decidable (a.start ≤ b.start))

instance : IsTotal SafeArc arcStartLE := ⟨fun a b => le_total a.start b.start⟩

instance : IsTrans SafeArc arcStartLE := ⟨fun _ _ _ h h' => le_trans h h'⟩

/-- `numAngleSamples = 180` ("check every 2 degrees"). -/
def numAngleSamples : ℕ := 180

/-- `angleSampleStep = 2π / numAngleSamples`. -/
def angleSampleStep (M : JsMath) : ℚ := 2 * M.PI / numAngleSamples

/-- The i-th sampled angle `i * angleSampleStep`.  Note that
`sampleAngle M 180 = 2 * M.PI` exactly, the angle the source assigns to
the virtual sample one past the end. -/
def sampleAngle (M : JsMath) (i : ℕ) : ℚ := i * angleSampleStep M

/-- `mainButtonCenterX = centerPosition.x + mainButtonSize / 2`. -/
def mainButtonCenterX (o : RepulsionOrbitOptions) : ℚ :=
  o.centerPosition.x + o.mainButtonSize / 2

/-- `mainButtonCenterY = centerPosition.y + mainButtonSize / 2`. -/
def mainButtonCenterY (o : RepulsionOrbitOptions) : ℚ :=
  o.centerPosition.y + o.mainButtonSize / 2

/-- The safety predicate `isAngleSafe` (identical in both variants): the
item's bounding box, centered on the orbit at `angle`, lies within
`[0, viewportWidth] × [0, viewportHeight]`. -/
def isAngleSafe (M : JsMath) (o : RepulsionOrbitOptions) (angle : ℚ) : Bool :=
  let itemAbsX := mainButtonCenterX o + o.orbitRadius * M.cos angle
  let itemAbsY := mainButtonCenterY o + o.orbitRadius * M.sin angle
  let halfItem := o.itemSize / 2
  decide (itemAbsX - halfItem ≥ 0) && decide (itemAbsX + halfItem ≤ o.viewportWidth) &&
    decide (itemAbsY - halfItem ≥ 0) && decide (itemAbsY + halfItem ≤ o.viewportHeight)

/-- Safety of the i-th sample as seen by the arc-building loop: the
virtual sample `i = numAngleSamples` is treated as unsafe. -/
def sampleSafe (M : JsMath) (o : RepulsionOrbitOptions) (i : ℕ) : Bool :=
  decide (i < numAngleSamples) && isAngleSafe M o (sampleAngle M i)

/-- Construct an `ItemPosition` from a final angle:
`{x: r·cos θ, y: r·sin θ, angle: θ}`. -/
def mkItemPosition (M : JsMath) (o : RepulsionOrbitOptions) (θ : ℚ) : ItemPosition :=
  ⟨o.orbitRadius * M.cos θ, o.orbitRadius * M.sin θ, θ⟩

/-- Sum of the `length` fields (`safeArcs.reduce((sum, arc) => sum + arc.length, 0)`). -/
def totalSafeAngleLength (arcs : List SafeArc) : ℚ :=
  (arcs.map (fun a => a.length)).sum

/-- Split a list into its initial segment and last element. -/
def splitLast : List SafeArc → Option (List SafeArc × SafeArc)
  | [] => none
  | a :: rest =>
    match splitLast rest with
    | none => some ([], a)
    | some (m, l) => some (a :: m, l)

namespace Part003

/-- The arc-discovery loop of `src/unnamed/part_003` (lines 73-87): walk
the sample indices (including the virtual unsafe sample at index 180,
whose angle is `2π`), opening a run at the first safe sample and closing
it at the next unsafe one; an open run at the very end cannot remain
because the virtual sample is unsafe. -/
def buildArcs (M : JsMath) (o : RepulsionOrbitOptions) : List ℕ → Option ℚ → List SafeArc
  | [], _ => []
  | i :: rest, none =>
    if sampleSafe M o i then buildArcs M o rest (some (sampleAngle M i))
    else buildArcs M o rest none
  | i :: rest, some s =>
    if sampleSafe M o i then buildArcs M o rest (some s)
    else ⟨s, sampleAngle M i, sampleAngle M i - s⟩ :: buildArcs M o rest none

/-- The list of maximal safe runs before wrap-around merging. -/
def safeArcsRaw (M : JsMath) (o : RepulsionOrbitOptions) : List SafeArc :=
  buildArcs M o (List.range (numAngleSamples + 1)) none

/-- The wrap-around merge of `part_003` (lines 89-105): if the first and
last samples are both safe and more than one arc was found, `shift` the
first arc and `pop` the last one, and `push` the merged arc
`{start: lastArc.start, end: firstArc.end + 2π, length: sum}`. -/
def mergeWraparound (M : JsMath) (o : RepulsionOrbitOptions) (arcs : List SafeArc) :
    List SafeArc :=
  if sampleSafe M o 0 && sampleSafe M o (numAngleSamples - 1) && decide (1 < arcs.length) then
    match arcs with
    | [] => arcs
    | firstArc :: rest =>
      match splitLast rest with
      | none => arcs
      | some (middle, lastArc) =>
        middle ++ [⟨lastArc.start, firstArc.stop + 2 * M.PI, lastArc.length + firstArc.length⟩]
  else arcs

/-- The discovered safe arcs of `part_003` (after wrap-around merging). -/
def safeArcs (M : JsMath) (o : RepulsionOrbitOptions) : List SafeArc :=
  mergeWraparound M o (safeArcsRaw M o)

/-- The arc walk of `part_003` (lines 129-148): find the arc claiming
`target` in concatenated angular space, with a `+0.0001` tolerance at the
upper end, and return the un-normalized angle `arc.start + (target - acc)`. -/
def findAngleInArcs (target : ℚ) : ℚ → List SafeArc → Option ℚ
  | _, [] => none
  | acc, arc :: rest =>
    if acc ≤ target ∧ target < acc + arc.length + 1 / 10000 then
      some (arc.start + (target - acc))
    else findAngleInArcs target (acc + arc.length) rest

/-- The fallback of `part_003` (lines 151-159): the middle of the first
safe arc, normalized: `(arc.start + arc.length / 2) % (2π)`. -/
def fallbackAngle (M : JsMath) (arcs : List SafeArc) : ℚ :=
  jsMod ((arcs.headD ⟨0, 0, 0⟩).start + (arcs.headD ⟨0, 0, 0⟩).length / 2) (2 * M.PI)

/-- One iteration of the placement loop of `part_003` (lines 125-161):
place the item found by the arc walk (angle normalized by `% 2π`), or
fall back when no arc claims it — the fallback itself fires only under
`positions.length < numItems && safeArcs.length > 0`; when it does not,
the slot is left unassigned (a hole, removed by the final
`.filter(p => p)`, modelled here by not appending). -/
def placeStep (M : JsMath) (o : RepulsionOrbitOptions) (arcs : List SafeArc) (slot : ℚ)
    (acc : List ItemPosition) (itemIndex : ℕ) : List ItemPosition :=
  let target := (itemIndex + 1 / 2) * slot
  match findAngleInArcs target 0 arcs with
  | some θ => acc ++ [mkItemPosition M o (jsMod θ (2 * M.PI))]
  | none =>
    if acc.length < o.numItems ∧ arcs ≠ [] then
      acc ++ [mkItemPosition M o (fallbackAngle M arcs)]
    else acc

/-- The full placement loop over all item indices. -/
def positionsList (M : JsMath) (o : RepulsionOrbitOptions) (arcs : List SafeArc) (slot : ℚ) :
    List ItemPosition :=
  (List.range o.numItems).foldl (placeStep M o arcs slot) []

/-- The complete placement computation `calculatedPositions` of
`part_003` (lines 44-165).  The `typeof window === 'undefined'` guard is
an environment check, modelled as always false (a window exists). -/
def calculatedPositions (M : JsMath) (o : RepulsionOrbitOptions) : List ItemPosition :=
  if ¬ o.isOpen ∨ o.numItems = 0 ∨ o.orbitRadius ≤ 0 then []
  else
    let arcs := safeArcs M o
    if arcs = [] then []
    else if totalSafeAngleLength arcs < 1 / 1000 then []
    else
      let sorted := List.insertionSort arcStartLE arcs
      List.insertionSort angleLE
        (positionsList M o sorted (totalSafeAngleLength arcs / o.numItems))

end Part003

namespace Part002

/-- `VERY_SMALL_NUMBER = 0.00001`, the float-comparison tolerance of
`src/unnamed/part_002`. -/
def VERY_SMALL_NUMBER : ℚ := 1 / 100000

/-- The arc-discovery loop of `part_002` (lines 75-90): identical to the
`part_003` one except that a run is pushed only when it has positive
length (`currentSampleAngle > currentArcStartAngle`). -/
def buildArcs (M : JsMath) (o : RepulsionOrbitOptions) : List ℕ → Option ℚ → List SafeArc
  | [], _ => []
  | i :: rest, none =>
    if sampleSafe M o i then buildArcs M o rest (some (sampleAngle M i))
    else buildArcs M o rest none
  | i :: rest, some s =>
    if sampleSafe M o i then buildArcs M o rest (some s)
    else if s < sampleAngle M i then
      ⟨s, sampleAngle M i, sampleAngle M i - s⟩ :: buildArcs M o rest none
    else buildArcs M o rest none

/-- The list of maximal safe runs of `part_002` before merging. -/
def safeArcsRaw (M : JsMath) (o : RepulsionOrbitOptions) : List SafeArc :=
  buildArcs M o (List.range (numAngleSamples + 1)) none

/-- The predicate `findIndex` uses for the arc starting at angle 0
(`|arc.start - 0| < ε || |arc.start - safeAnglesInfo[0].angle| < ε`;
`safeAnglesInfo[0].angle` is 0). -/
def isFirstArcPred (M : JsMath) (a : SafeArc) : Bool :=
  decide (|a.start - 0| < VERY_SMALL_NUMBER) ||
    decide (|a.start - sampleAngle M 0| < VERY_SMALL_NUMBER)

/-- The predicate `findIndex` uses for the arc ending at angle 2π
(`|arc.end - 2π| < ε || |arc.end - (lastSampleAngle + step)| < ε`;
`lastSampleAngle + step` is exactly 2π). -/
def isLastArcPred (M : JsMath) (a : SafeArc) : Bool :=
  decide (|a.stop - 2 * M.PI| < VERY_SMALL_NUMBER) ||
    decide (|a.stop - (sampleAngle M (numAngleSamples - 1) + angleSampleStep M)| <
      VERY_SMALL_NUMBER)

/-- The wrap-around merge of `part_002` (lines 92-111): locate by
`findIndex` the arc starting at 0 and the arc ending at 2π; if both exist
and differ, remove them and append the merged arc. -/
def mergeWraparound (M : JsMath) (o : RepulsionOrbitOptions) (arcs : List SafeArc) :
    List SafeArc :=
  if sampleSafe M o 0 && sampleSafe M o (numAngleSamples - 1) && decide (1 < arcs.length) then
    match arcs.findIdx? (isFirstArcPred M), arcs.findIdx? (isLastArcPred M) with
    | some fi, some li =>
      if fi ≠ li then
        match arcs.get? fi, arcs.get? li with
        | some firstArc, some lastArc =>
          ((arcs.enum.filter (fun p => decide (p.1 ≠ fi ∧ p.1 ≠ li))).map Prod.snd) ++
            [⟨lastArc.start, firstArc.stop + 2 * M.PI, lastArc.length + firstArc.length⟩]
        | _, _ => arcs
      else arcs
    | _, _ => arcs
  else arcs

/-- The discovered safe arcs of `part_002` (after merging). -/
def safeArcs (M : JsMath) (o : RepulsionOrbitOptions) : List SafeArc :=
  mergeWraparound M o (safeArcsRaw M o)

/-- The arc walk of `part_002` (lines 145-168): tolerance `ε = 1e-5` at
both ends, and the angle within the arc is clamped to `[0, arc.length]`
(`Math.max(0, Math.min(raw, arc.length))`). -/
def findAngleInArcs (target : ℚ) : ℚ → List SafeArc → Option ℚ
  | _, [] => none
  | acc, arc :: rest =>
    if acc - VERY_SMALL_NUMBER ≤ target ∧ target < acc + arc.length + VERY_SMALL_NUMBER then
      some (arc.start + max 0 (min (target - acc) arc.length))
    else findAngleInArcs target (acc + arc.length) rest

/-- The fallback of `part_002` (lines 170-185): the start of the first
safe arc, normalized: `safeArcs[0].start % (2π)`. -/
def fallbackAngle (M : JsMath) (arcs : List SafeArc) : ℚ :=
  jsMod (arcs.headD ⟨0, 0, 0⟩).start (2 * M.PI)

/-- The stacking angle of the degenerate branch of `part_002`
(lines 117-132): the middle of the first (tiny) arc. -/
def stackAngle (M : JsMath) (arcs : List SafeArc) : ℚ :=
  jsMod ((arcs.headD ⟨0, 0, 0⟩).start + (arcs.headD ⟨0, 0, 0⟩).length / 2) (2 * M.PI)

/-- One iteration of the placement loop of `part_002` (lines 141-186):
unlike `part_003`, the fallback is unconditional, so every item is
pushed. -/
def placeStep (M : JsMath) (o : RepulsionOrbitOptions) (arcs : List SafeArc) (slot : ℚ)
    (acc : List ItemPosition) (itemIndex : ℕ) : List ItemPosition :=
  let target := (itemIndex + 1 / 2) * slot
  match findAngleInArcs target 0 arcs with
  | some θ => acc ++ [mkItemPosition M o (jsMod θ (2 * M.PI))]
  | none => acc ++ [mkItemPosition M o (fallbackAngle M arcs)]

/-- The complete placement computation `calculatedPositions` of
`part_002` (lines 46-190): when the total safe length is below
`VERY_SMALL_NUMBER` all items are stacked at the middle of the first arc;
otherwise the evenly-spaced walk runs over the arcs sorted by start. -/
def calculatedPositions (M : JsMath) (o : RepulsionOrbitOptions) : List ItemPosition :=
  if ¬ o.isOpen ∨ o.numItems = 0 ∨ o.orbitRadius ≤ 0 then []
  else
    let arcs := safeArcs M o
    if arcs = [] then []
    else
      let total := totalSafeAngleLength arcs
      if total < VERY_SMALL_NUMBER then
        List.insertionSort angleLE
          ((List.range o.numItems).map (fun _ => mkItemPosition M o (stackAngle M arcs)))
      else
        let sorted := List.insertionSort arcStartLE arcs
        List.insertionSort angleLE
          ((List.range o.numItems).foldl (placeStep M o sorted (total / o.numItems)) [])

end Part002

namespace UseDraggableTs

/-- The state of the mouse-only drag controller
`src/src/hooks/useDraggable.ts`, together with the `window.innerWidth` /
`window.innerHeight` environment it reads (mutated only by resize). -/
structure DragState where
  positionX : ℚ
  positionY : ℚ
  isDragging : Bool
  hasMovedBeyondThreshold : Bool
  dragOffsetX : ℚ
  dragOffsetY : ℚ
  mouseDownScreenPosition : Option Point
  innerWidth : ℚ
  innerHeight : ℚ
deriving DecidableEq, Repr

/-- The events driving the controller.  `mouseDown` carries the button id,
the client coordinates and the element's bounding rect origin; `resize`
carries the new window size. -/
inductive DragEvent where
  | mouseDown (button : ℤ) (clientX clientY rectLeft rectTop : ℚ)
  | mouseMove (clientX clientY : ℚ)
  | mouseUp
  | resize (innerWidth innerHeight : ℚ)
deriving DecidableEq, Repr

/-- `handleMouseDown` (lines 46-62): ignore non-primary buttons; otherwise
record the drag offset and press origin, reset the threshold latch, and
start dragging. -/
def handleMouseDown (s : DragState) (button : ℤ) (clientX clientY rectLeft rectTop : ℚ) :
    DragState :=
  if button ≠ 0 then s
  else
    { s with
      dragOffsetX := clientX - rectLeft
      dragOffsetY := clientY - rectTop
      mouseDownScreenPosition := some ⟨clientX, clientY⟩
      hasMovedBeyondThreshold := false
      isDragging := true }

/-- `handleMouseMove` (lines 67-94): no-op unless dragging; latch the
threshold flag once the press-to-pointer distance exceeds
`dragThreshold` (the source compares `Math.sqrt(dx² + dy²) > threshold`;
for the nonnegative thresholds of the data model this is equivalent to
the squared comparison used here); then clamp the new position into
`[0, innerWidth - size] × [0, innerHeight - size]` via
`Math.max(0, Math.min(·, bound))`. -/
def handleMouseMove (size dragThreshold : ℚ) (s : DragState) (clientX clientY : ℚ) :
    DragState :=
  if s.isDragging = false then s
  else
    let moved :=
      match s.mouseDownScreenPosition with
      | some p =>
        if s.hasMovedBeyondThreshold then true
        else decide (dragThreshold * dragThreshold <
          (clientX - p.x) * (clientX - p.x) + (clientY - p.y) * (clientY - p.y))
      | none => s.hasMovedBeyondThreshold
    { s with
      hasMovedBeyondThreshold := moved
      positionX := max 0 (min (clientX - s.dragOffsetX) (s.innerWidth - size))
      positionY := max 0 (min (clientY - s.dragOffsetY) (s.innerHeight - size)) }

/-- `handleMouseUp` (lines 96-103): stop dragging;
`hasMovedBeyondThreshold` is deliberately not reset. -/
def handleMouseUp (s : DragState) : DragState :=
  { s with isDragging := false }

/-- `handleResize` (lines 129-142, identical in `part_001` lines 154-167):
update the stored window size and re-clamp the current position with the
same formula. -/
def handleResize (size : ℚ) (s : DragState) (w h : ℚ) : DragState :=
  { s with
    innerWidth := w
    innerHeight := h
    positionX := max 0 (min s.positionX (w - size))
    positionY := max 0 (min s.positionY (h - size)) }

/-- One controller update. -/
def step (size dragThreshold : ℚ) (s : DragState) : DragEvent → DragState
  | .mouseDown b x y l t => handleMouseDown s b x y l t
  | .mouseMove x y => handleMouseMove size dragThreshold s x y
  | .mouseUp => handleMouseUp s
  | .resize w h => handleResize size s w h

/-- A whole event sequence. -/
def run (size dragThreshold : ℚ) (s : DragState) (evs : List DragEvent) : DragState :=
  evs.foldl (step size dragThreshold) s

end UseDraggableTs

/-- `undefined - 5`, `Math.min(NaN, x)` and the like all yield `NaN` in
JavaScript; `none` models an `undefined`/`NaN`-contaminated number. -/
def wsub : Option ℚ → Option ℚ → Option ℚ
  | some a, some b => some (a - b)
  | _, _ => none

/-- `Math.min` with `NaN` absorption. -/
def wmin : Option ℚ → Option ℚ → Option ℚ
  | some a, some b => some (min a b)
  | _, _ => none

/-- `Math.max` with `NaN` absorption. -/
def wmax : Option ℚ → Option ℚ → Option ℚ
  | some a, some b => some (max a b)
  | _, _ => none

namespace Part001

/-- The state of the unified mouse/touch drag controller
`src/unnamed/part_001`.  Coordinates are `Option ℚ` because a malformed
touch event makes `getEventCoordinates` return
`{x: undefined, y: undefined}`, which then propagates as `NaN`. -/
structure DragState where
  positionX : Option ℚ
  positionY : Option ℚ
  isDragging : Bool
  hasMovedBeyondThreshold : Bool
  dragOffsetX : Option ℚ
  dragOffsetY : Option ℚ
  interactionStartScreenPosition : Option (Option ℚ × Option ℚ)
deriving DecidableEq, Repr

/-- The raw pointer/touch events.  A touch event carries its `touches`
and `changedTouches` lists. -/
inductive InteractionEvent where
  | mouseDown (button : ℤ) (clientX clientY : ℚ)
  | touchStart (touches changedTouches : List Point)
  | mouseMove (clientX clientY : ℚ)
  | touchMove (touches changedTouches : List Point)
  | interactionEnd
deriving DecidableEq, Repr

/-- `getEventCoordinates` (lines 43-54): for touch events take the first
touch, falling back to `changedTouches`; when both are empty the source
reads `event.clientX`/`clientY`, which do not exist on a `TouchEvent`,
yielding `undefined` for both coordinates.  Mouse events read
`clientX`/`clientY` directly.  (`interactionEnd` is never passed to it.) -/
def getEventCoordinates : InteractionEvent → Option ℚ × Option ℚ
  | .mouseDown _ x y => (some x, some y)
  | .mouseMove x y => (some x, some y)
  | .touchStart ts cs =>
    match ts with
    | p :: _ => (some p.x, some p.y)
    | [] =>
      match cs with
      | p :: _ => (some p.x, some p.y)
      | [] => (none, none)
  | .touchMove ts cs =>
    match ts with
    | p :: _ => (some p.x, some p.y)
    | [] =>
      match cs with
      | p :: _ => (some p.x, some p.y)
      | [] => (none, none)
  | .interactionEnd => (none, none)

/-- The body shared by both branches of `handleInteractionStart`
(lines 66-77): record offset and origin from the extracted coordinates,
reset the threshold latch, start dragging. -/
def applyStart (rectLeft rectTop : ℚ) (s : DragState) (c : Option ℚ × Option ℚ) : DragState :=
  { s with
    dragOffsetX := wsub c.1 (some rectLeft)
    dragOffsetY := wsub c.2 (some rectTop)
    interactionStartScreenPosition := some c
    hasMovedBeyondThreshold := false
    isDragging := true }

/-- `handleInteractionStart` (lines 56-79): a mouse event with a
non-primary button returns immediately (no state change); any other
start event proceeds with whatever coordinates `getEventCoordinates`
yields.  Move/end events are not routed to this handler. -/
def handleInteractionStart (rectLeft rectTop : ℚ) (s : DragState) (e : InteractionEvent) :
    DragState :=
  match e with
  | .mouseDown b _ _ => if b ≠ 0 then s else applyStart rectLeft rectTop s (getEventCoordinates e)
  | .touchStart _ _ => applyStart rectLeft rectTop s (getEventCoordinates e)
  | _ => s

/-- The threshold test of `handleInteractionMove` (lines 91-98):
`Math.sqrt(dx² + dy²) > dragThreshold`, false whenever any coordinate is
`NaN`; for nonnegative thresholds the square-root comparison is the
squared comparison used here. -/
def distanceExceeds (o c : Option ℚ × Option ℚ) (t : ℚ) : Bool :=
  match o.1, o.2, c.1, c.2 with
  | some ox, some oy, some cx, some cy =>
    decide (t * t < (cx - ox) * (cx - ox) + (cy - oy) * (cy - oy))
  | _, _, _, _ => false

/-- `handleInteractionMove` (lines 82-109): no-op unless dragging; latch
the threshold flag (one-way); update and clamp the position, `NaN`s
propagating. -/
def handleInteractionMove (size dragThreshold innerWidth innerHeight : ℚ) (s : DragState)
    (e : InteractionEvent) : DragState :=
  match e with
  | .mouseMove _ _ | .touchMove _ _ =>
    if s.isDragging = false then s
    else
      let c := getEventCoordinates e
      let moved :=
        match s.interactionStartScreenPosition with
        | some o =>
          if s.hasMovedBeyondThreshold then true else distanceExceeds o c dragThreshold
        | none => s.hasMovedBeyondThreshold
      { s with
        hasMovedBeyondThreshold := moved
        positionX := wmax (some 0) (wmin (wsub c.1 s.dragOffsetX) (some (innerWidth - size)))
        positionY := wmax (some 0) (wmin (wsub c.2 s.dragOffsetY) (some (innerHeight - size))) }
  | _ => s

/-- `handleInteractionEnd` (lines 111-118): stop dragging;
`hasMovedBeyondThreshold` deliberately stays. -/
def handleInteractionEnd (s : DragState) : DragState :=
  { s with isDragging := false }

end Part001

/-- The edge-avoidance property claimed for a returned `ItemPosition`:
its `itemSize`-sided bounding box, centered at
`(orbitCenter.x + x, orbitCenter.y + y)` (the returned offsets are
exactly `r·cos angle` / `r·sin angle`), lies within
`[0, viewportWidth] × [0, viewportHeight]`. -/
def insideViewport (o : RepulsionOrbitOptions) (p : ItemPosition) : Prop :=
  0 ≤ mainButtonCenterX o + p.x - o.itemSize / 2 ∧
    mainButtonCenterX o + p.x + o.itemSize / 2 ≤ o.viewportWidth ∧
    0 ≤ mainButtonCenterY o + p.y - o.itemSize / 2 ∧
    mainButtonCenterY o + p.y + o.itemSize / 2 ≤ o.viewportHeight

instance (o : RepulsionOrbitOptions) (p : ItemPosition) : Decidable (insideViewport o p) :=
  inferInstanceAs (Decidable (_ ∧ _ ∧ _ ∧ _))

/-- Membership of an angle in an arc's span `[start, start + length)`
taken modulo a full turn `p2` (the wrap-around arc extends past `2π`, so
a sampled angle may fall in it only after adding `2π`). -/
def inSpanMod (p2 : ℚ) (arc : SafeArc) (θ : ℚ) : Prop :=
  (arc.start ≤ θ ∧ θ < arc.stop) ∨ (arc.start ≤ θ + p2 ∧ θ + p2 < arc.stop)

/-- A degenerate but `Bounded`/`Lipschitz`/periodic model of `Math` used
to instantiate witnesses: `π := 22/7`, `cos = sin = 0`. -/
def flatMath : JsMath := ⟨22 / 7, fun _ => 0, fun _ => 0⟩

/-- The spec's reference scenario: viewport 800×600, main control at
(400, 300), orbit radius 100, item size 40, main button 56, 6 items,
menu open. -/
def scenarioOpts : RepulsionOrbitOptions := ⟨true, ⟨400, 300⟩, 6, 100, 40, 56, 800, 600⟩

/-- A bounded `Math` model whose sine dips to -1 exactly at the
non-sampled angle `π/7 = 22/49` (for `π := 22/7` none of the 180 sampled
angles `11·i/315` equals `22/49`), exhibiting the unsafe sliver between
samples that the placement interpolates into. -/
def sliverMath : JsMath := ⟨22 / 7, fun _ => 0, fun θ => if θ = 22 / 49 then -1 else 0⟩

/-- Menu near the top-left corner (main control at the origin), 7 items:
item 0 is placed at the non-sampled angle `π/7`. -/
def sliverOpts : RepulsionOrbitOptions := ⟨true, ⟨0, 0⟩, 7, 100, 40, 56, 800, 600⟩

/-- A bounded `Math` model making the right half of the orbit unsafe in a
120×120 viewport: `cos θ = 1` for `π/2 < θ < 3π/2` and `0` elsewhere, so
the samples split into a run starting at 0 and a run ending at 2π,
forcing the wrap-around merge. -/
def splitMath : JsMath := ⟨22 / 7, fun θ => if 11 / 7 < θ ∧ θ < 33 / 7 then 1 else 0, fun _ => 0⟩

/-- Options under which `splitMath` yields two raw arcs. -/
def splitOpts : RepulsionOrbitOptions := ⟨true, ⟨0, 0⟩, 6, 100, 40, 56, 120, 120⟩

namespace UseDraggableTs

/-- The clamp invariant the code actually maintains: each coordinate lies
in `[0, max 0 (innerExtent - size)]` (the claimed upper bound
`innerExtent - size` itself is negative when the viewport is smaller
than the footprint, in which case the clamp yields 0). -/
def ClampInv (size : ℚ) (s : DragState) : Prop :=
  0 ≤ s.positionX ∧ s.positionX ≤ max 0 (s.innerWidth - size) ∧
    0 ≤ s.positionY ∧ s.positionY ≤ max 0 (s.innerHeight - size)

instance (size : ℚ) (s : DragState) : Decidable (ClampInv size s) :=
  inferInstanceAs (Decidable (_ ∧ _ ∧ _ ∧ _))

/-- A dragging state in a 30×30 viewport (smaller than a footprint of
50), used to refute the claimed bound `x ≤ innerWidth - footprint`. -/
def tinyViewportState : DragState :=
  ⟨0, 0, true, false, 0, 0, some ⟨0, 0⟩, 30, 30⟩

end UseDraggableTs

namespace Part001

/-- Mouse-move events from a list of pointer positions. -/
def moveEvents (ms : List Point) : List InteractionEvent :=
  ms.map (fun p => .mouseMove p.x p.y)

/-- Fold the move handler over a list of pointer positions. -/
def runMoves (size dragThreshold innerWidth innerHeight : ℚ) (s : DragState)
    (ms : List Point) : DragState :=
  (moveEvents ms).foldl (handleInteractionMove size dragThreshold innerWidth innerHeight) s

/-- An idle controller state. -/
def idleState : DragState := ⟨some 0, some 0, false, false, some 0, some 0, none⟩

end Part001

/-- Characterization of a discovered raw arc: it spans the sampled
angles `[a, b)` for some indices `a < b ≤ 180`, its fields are exactly
those sampled angles, and every sample inside the span is safe. -/
def SpecArc (M : JsMath) (o : RepulsionOrbitOptions) (arc : SafeArc) : Prop :=
  ∃ a b : ℕ, a < b ∧ b ≤ 180 ∧ arc.start = sampleAngle M a ∧ arc.stop = sampleAngle M b ∧
    arc.length = sampleAngle M b - sampleAngle M a ∧
    ∀ m, a ≤ m → m < b → sampleSafe M o m = true

/-- Clamping `max 0 (min v b)` always lands in `[0, max 0 b]`. -/
theorem clamp_bounds (v b : ℚ) : 0 ≤ max 0 (min v b) ∧ max 0 (min v b) ≤ max 0 b :=
  ⟨le_max_left 0 _, max_le_max le_rfl (min_le_right v b)⟩

/-- C2 (amended): every position-writing update (a move while dragging, or
a resize) clamps each coordinate into `[0, max 0 (innerExtent - size)]`,
and this invariant — `0 ≤ x ≤ max 0 (innerWidth - footprint)`, likewise
for y — is preserved by every update of every event sequence.  When the
viewport is at least as large as the footprint, `max 0 (W - size)` is the
claimed bound `W - size`; when it is smaller, the clamp yields 0 and the
claimed bound `x ≤ W - footprint` fails (see the counterexample). -/
theorem claim_C2_amended (size t : ℚ) :
    (∀ (s : UseDraggableTs.DragState) (x y : ℚ), s.isDragging = true →
      UseDraggableTs.ClampInv size (UseDraggableTs.step size t s (.mouseMove x y))) ∧
    (∀ (s : UseDraggableTs.DragState) (w h : ℚ),
      UseDraggableTs.ClampInv size (UseDraggableTs.step size t s (.resize w h))) ∧
    (∀ (s : UseDraggableTs.DragState) (evs : List UseDraggableTs.DragEvent),
      UseDraggableTs.ClampInv size s →
      UseDraggableTs.ClampInv size (UseDraggableTs.run size t s evs)) := by
  have hmove : ∀ (s : UseDraggableTs.DragState) (x y : ℚ), s.isDragging = true →
      UseDraggableTs.ClampInv size (UseDraggableTs.step size t s (.mouseMove x y)) := by
    intro s x y hd
    simp only [UseDraggableTs.step, UseDraggableTs.handleMouseMove, hd]
    simp only [Bool.true_eq_false, if_false, UseDraggableTs.ClampInv]
    exact ⟨(clamp_bounds _ _).1, (clamp_bounds _ _).2, (clamp_bounds _ _).1,
      (clamp_bounds _ _).2⟩
  have hres : ∀ (s : UseDraggableTs.DragState) (w h : ℚ),
      UseDraggableTs.ClampInv size (UseDraggableTs.step size t s (.resize w h)) := by
    intro s w h
    simp only [UseDraggableTs.step, UseDraggableTs.handleResize, UseDraggableTs.ClampInv]
    exact ⟨(clamp_bounds _ _).1, (clamp_bounds _ _).2, (clamp_bounds _ _).1,
      (clamp_bounds _ _).2⟩
  refine ⟨hmove, hres, ?_⟩
  intro s evs h
  induction evs generalizing s with
  | nil => exact h
  | cons e evs ih =>
    refine ih _ ?_
    cases e with
    | mouseDown b x y l r =>
      simp only [UseDraggableTs.step, UseDraggableTs.handleMouseDown]
      split
      · exact h
      · exact h
    | mouseMove x y =>
      by_cases hd : s.isDragging = true
      · exact hmove s x y hd
      · simp only [UseDraggableTs.step, UseDraggableTs.handleMouseMove,
          Bool.not_eq_true] at hd ⊢
        rw [hd]
        simpa using h
    | mouseUp => exact h
    | resize w hh => exact hres s w hh

/-- C2 (counterexample): in a 30×30 viewport with footprint 50, a
drag-move update clamps the position to 0, which violates the claimed
bound `currentPosition.x ≤ viewportWidth - footprint = -20`. -/
theorem claim_C2_counterexample :
    (UseDraggableTs.step 50 5 UseDraggableTs.tinyViewportState (.mouseMove 0 0)).positionX = 0 ∧
    ¬ ((UseDraggableTs.step 50 5 UseDraggableTs.tinyViewportState (.mouseMove 0 0)).positionX ≤
      (UseDraggableTs.step 50 5 UseDraggableTs.tinyViewportState
        (.mouseMove 0 0)).innerWidth - 50) := by
  norm_num [UseDraggableTs.step, UseDraggableTs.handleMouseMove,
    UseDraggableTs.tinyViewportState, min_def, max_def]

/-- C2 witness: a concrete press / move / resize / release sequence in an
800×600 viewport keeps the position inside the clamp bounds. -/
theorem claim_C2_witness :
    UseDraggableTs.ClampInv 50 (UseDraggableTs.run 50 5
      ⟨0, 0, false, false, 0, 0, none, 800, 600⟩
      [.mouseDown 0 10 10 0 0, .mouseMove 200 200, .resize 100 100, .mouseUp]) :=
  (claim_C2_amended 50 5).2.2 _ _
    (by norm_num [UseDraggableTs.ClampInv, min_def, max_def])

/-- C8 (amended): an interaction-start with a non-primary mouse button is
ignored entirely (the state is returned unchanged), but a malformed
touch-start (no `touches`, no `changedTouches`) is NOT ignored: the
handler proceeds with undefined coordinates, recording an undefined drag
offset and press origin, resetting the latch and setting `isDragging`. -/
theorem claim_C8_amended :
    (∀ (rectLeft rectTop : ℚ) (s : Part001.DragState) (b : ℤ) (x y : ℚ), b ≠ 0 →
      Part001.handleInteractionStart rectLeft rectTop s (.mouseDown b x y) = s) ∧
    (∀ (rectLeft rectTop : ℚ) (s : Part001.DragState),
      Part001.handleInteractionStart rectLeft rectTop s (.touchStart [] []) =
        { s with dragOffsetX := none, dragOffsetY := none,
                 interactionStartScreenPosition := some (none, none),
                 hasMovedBeyondThreshold := false, isDragging := true }) := by
  constructor
  · intro _ _ s b x y hb
    simp [Part001.handleInteractionStart, hb]
  · intro _ _ s
    rfl

/-- C8 (counterexample): a malformed touch-start is not ignored — it
mutates the state and leaves the controller dragging, contradicting the
claim that no field is mutated and the controller stays idle. -/
theorem claim_C8_counterexample :
    (Part001.handleInteractionStart 0 0 Part001.idleState (.touchStart [] [])).isDragging =
      true ∧
    Part001.handleInteractionStart 0 0 Part001.idleState (.touchStart [] []) ≠
      Part001.idleState := by
  decide

/-- C8 witness: a right-button press (button 2) leaves the idle state
untouched. -/
theorem claim_C8_witness :
    Part001.handleInteractionStart 3 4 Part001.idleState (.mouseDown 2 50 60) =
      Part001.idleState :=
  claim_C8_amended.1 3 4 Part001.idleState 2 50 60 (by decide)

/-- Folding the move handler from a dragging state with a well-formed
press origin keeps `isDragging` and the origin, and the threshold latch
ends true exactly when it started true or some move exceeded the
threshold. -/
theorem Part001.runMoves_spec (size t W H sx sy : ℚ) (ms : List Point) :
    ∀ s : Part001.DragState, s.isDragging = true →
      s.interactionStartScreenPosition = some (some sx, some sy) →
      (Part001.runMoves size t W H s ms).isDragging = true ∧
      (Part001.runMoves size t W H s ms).interactionStartScreenPosition =
        some (some sx, some sy) ∧
      ((Part001.runMoves size t W H s ms).hasMovedBeyondThreshold = true ↔
        (s.hasMovedBeyondThreshold = true ∨
          ∃ p ∈ ms, t * t < (p.x - sx) * (p.x - sx) + (p.y - sy) * (p.y - sy))) := by
  induction ms with
  | nil =>
    intro s hd ho
    exact ⟨hd, ho, by simp [Part001.runMoves, Part001.moveEvents]⟩
  | cons p ms ih =>
    intro s hd ho
    have hstep : Part001.runMoves size t W H s (p :: ms) =
        Part001.runMoves size t W H
          (Part001.handleInteractionMove size t W H s (.mouseMove p.x p.y)) ms := rfl
    set s1 := Part001.handleInteractionMove size t W H s (.mouseMove p.x p.y) with hs1
    have h1d : s1.isDragging = true := by
      simp only [hs1, Part001.handleInteractionMove, hd]
      simp
    have h1o : s1.interactionStartScreenPosition = some (some sx, some sy) := by
      simp only [hs1, Part001.handleInteractionMove, hd]
      simp [ho]
    have h1m : s1.hasMovedBeyondThreshold = true ↔
        (s.hasMovedBeyondThreshold = true ∨
          t * t < (p.x - sx) * (p.x - sx) + (p.y - sy) * (p.y - sy)) := by
      simp only [hs1, Part001.handleInteractionMove, hd]
      simp only [Bool.true_eq_false, if_false, ho]
      cases hm : s.hasMovedBeyondThreshold with
      | true => simp [hm]
      | false => simp [hm, Part001.distanceExceeds, Part001.getEventCoordinates]
    obtain ⟨rd, ro, rm⟩ := ih s1 h1d h1o
    rw [hstep]
    refine ⟨rd, ro, ?_⟩
    rw [rm, h1m, List.exists_mem_cons_iff]
    tauto

/-- C6: for an interaction made of a primary-button interaction-start at
`(sx, sy)`, a finite list of move events, and an interaction-end:
the latch is false immediately after the start; after the moves it is
true exactly when some move's Euclidean distance from the press origin
exceeds `dragThreshold` (for the data model's nonnegative thresholds,
`√(dx² + dy²) > t` is the squared comparison used here); once true after
some moves it stays true after any further moves (never reverts before
the next interaction-start); and interaction-end transitions to idle
without resetting the latch, so immediately after release it is false
for a tap and true for a drag. -/
theorem claim_C6_threshold_latch (rectLeft rectTop size t W H sx sy : ℚ) (ht : 0 ≤ t)
    (s : Part001.DragState) (ms ms2 : List Point) (s0 : Part001.DragState)
    (hs0 : s0 = Part001.handleInteractionStart rectLeft rectTop s (.mouseDown 0 sx sy)) :
    s0.hasMovedBeyondThreshold = false ∧
    ((Part001.runMoves size t W H s0 ms).hasMovedBeyondThreshold = true ↔
      ∃ p ∈ ms, t * t < (p.x - sx) * (p.x - sx) + (p.y - sy) * (p.y - sy)) ∧
    ((Part001.runMoves size t W H s0 ms).hasMovedBeyondThreshold = true →
      (Part001.runMoves size t W H s0 (ms ++ ms2)).hasMovedBeyondThreshold = true) ∧
    (Part001.handleInteractionEnd
        (Part001.runMoves size t W H s0 ms)).hasMovedBeyondThreshold =
      (Part001.runMoves size t W H s0 ms).hasMovedBeyondThreshold ∧
    (Part001.handleInteractionEnd (Part001.runMoves size t W H s0 ms)).isDragging = false := by
  have h0d : s0.isDragging = true := by rw [hs0]; rfl
  have h0o : s0.interactionStartScreenPosition = some (some sx, some sy) := by rw [hs0]; rfl
  have h0m : s0.hasMovedBeyondThreshold = false := by rw [hs0]; rfl
  obtain ⟨rd, ro, rm⟩ := Part001.runMoves_spec size t W H sx sy ms s0 h0d h0o
  have happend : Part001.runMoves size t W H s0 (ms ++ ms2) =
      Part001.runMoves size t W H (Part001.runMoves size t W H s0 ms) ms2 := by
    simp [Part001.runMoves, Part001.moveEvents, List.foldl_append]
  refine ⟨h0m, ?_, ?_, rfl, rfl⟩
  · rw [rm, h0m]
    simp
  · intro hmoved
    obtain ⟨_, _, rm2⟩ :=
      Part001.runMoves_spec size t W H sx sy ms2 (Part001.runMoves size t W H s0 ms) rd ro
    rw [happend, rm2]
    exact Or.inl hmoved

/-- C6 witness: a press at (100, 100) followed by a move to (110, 108),
with threshold 5; the move exceeds the threshold, the latch is set and
survives the interaction-end. -/
theorem claim_C6_witness :
    (Part001.handleInteractionStart 0 0 Part001.idleState
        (.mouseDown 0 100 100)).hasMovedBeyondThreshold = false ∧
    ((Part001.runMoves 56 5 800 600
        (Part001.handleInteractionStart 0 0 Part001.idleState (.mouseDown 0 100 100))
        [⟨110, 108⟩]).hasMovedBeyondThreshold = true ↔
      ∃ p ∈ [(⟨110, 108⟩ : Point)],
        (5 : ℚ) * 5 < (p.x - 100) * (p.x - 100) + (p.y - 100) * (p.y - 100)) ∧
    ((Part001.runMoves 56 5 800 600
        (Part001.handleInteractionStart 0 0 Part001.idleState (.mouseDown 0 100 100))
        [⟨110, 108⟩]).hasMovedBeyondThreshold = true →
      (Part001.runMoves 56 5 800 600
        (Part001.handleInteractionStart 0 0 Part001.idleState (.mouseDown 0 100 100))
        ([⟨110, 108⟩] ++ [])).hasMovedBeyondThreshold = true) ∧
    (Part001.handleInteractionEnd
        (Part001.runMoves 56 5 800 600
          (Part001.handleInteractionStart 0 0 Part001.idleState (.mouseDown 0 100 100))
          [⟨110, 108⟩])).hasMovedBeyondThreshold =
      (Part001.runMoves 56 5 800 600
        (Part001.handleInteractionStart 0 0 Part001.idleState (.mouseDown 0 100 100))
        [⟨110, 108⟩]).hasMovedBeyondThreshold ∧
    (Part001.handleInteractionEnd
        (Part001.runMoves 56 5 800 600
          (Part001.handleInteractionStart 0 0 Part001.idleState (.mouseDown 0 100 100))
          [⟨110, 108⟩])).isDragging = false :=
  claim_C6_threshold_latch 0 0 56 5 800 600 100 100 (by norm_num)
    Part001.idleState [⟨110, 108⟩] [] _ rfl

/-- C9: for every input (any `Math` model, any options), the sequence
returned by the placement computation — in both variants — is sorted by
ascending angle (it is produced by `.sort((a, b) => a.angle - b.angle)`),
not by input item index; a caller indexing it by item index cannot in
general assume correspondence. -/
theorem claim_C9_sorted_by_angle (M : JsMath) (o : RepulsionOrbitOptions) :
    List.Sorted angleLE (Part003.calculatedPositions M o) ∧
    List.Sorted angleLE (Part002.calculatedPositions M o) := by
  constructor
  · simp only [Part003.calculatedPositions]
    split
    · exact List.sorted_nil
    · split
      · exact List.sorted_nil
      · split
        · exact List.sorted_nil
        · exact List.sorted_insertionSort angleLE _
  · simp only [Part002.calculatedPositions]
    split
    · exact List.sorted_nil
    · split
      · exact List.sorted_nil
      · split
        · exact List.sorted_insertionSort angleLE _
        · exact List.sorted_insertionSort angleLE _

/-- `a % b = a` for `0 ≤ a < b`. -/
theorem jsMod_eq_self (a b : ℚ) (h0 : 0 ≤ a) (hb : a < b) : jsMod a b = a := by
  have hbpos : 0 < b := lt_of_le_of_lt h0 hb
  have hfl : ⌊a / b⌋ = 0 := by
    rw [Int.floor_eq_zero_iff]
    exact ⟨div_nonneg h0 hbpos.le, by rwa [div_lt_one hbpos]⟩
  unfold jsMod
  rw [hfl]
  push_cast
  ring

/-- The virtual sample's angle is exactly `2π`. -/
theorem sampleAngle_numSamples (M : JsMath) : sampleAngle M 180 = 2 * M.PI := by
  unfold sampleAngle angleSampleStep numAngleSamples
  push_cast
  ring

/-- The first sample's angle is 0. -/
theorem sampleAngle_zero (M : JsMath) : sampleAngle M 0 = 0 := by
  unfold sampleAngle
  norm_num

/-- The virtual sample is unsafe. -/
theorem sampleSafe_numSamples (M : JsMath) (o : RepulsionOrbitOptions) :
    sampleSafe M o 180 = false := by
  simp [sampleSafe, numAngleSamples]

/-- When every real sample is safe, the `part_003` run builder started on
a pending run just yields that single run closed at `2π`. -/
theorem Part003.buildArcs_allSafe (M : JsMath) (o : RepulsionOrbitOptions)
    (hall : ∀ j, j < 180 → sampleSafe M o j = true) :
    ∀ (n i : ℕ) (s : ℚ), i + n = 181 → i ≤ 179 →
      Part003.buildArcs M o (List.range' i n) (some s) = [⟨s, 2 * M.PI, 2 * M.PI - s⟩] := by
  intro n
  induction n with
  | zero => intro i s h hi; omega
  | succ n ih =>
    intro i s h hi
    rw [show n + 1 = n + 1 from rfl, List.range'_succ]
    by_cases h179 : i = 179
    · subst h179
      have hn1 : n = 1 := by omega
      subst hn1
      rw [List.range'_succ]
      simp [Part003.buildArcs, hall 179 (by omega), sampleSafe_numSamples M o,
        sampleAngle_numSamples]
    · simp only [Part003.buildArcs, hall i (by omega), if_true]
      exact ih (i + 1) s (by omega) (by omega)

/-- The `part_003` merge leaves a single arc alone (`length > 1` fails). -/
theorem Part003.mergeWraparound_singleton (M : JsMath) (o : RepulsionOrbitOptions)
    (a : SafeArc) : Part003.mergeWraparound M o [a] = [a] := by
  have hb : (sampleSafe M o 0 && sampleSafe M o (numAngleSamples - 1) &&
      decide (1 < ([a] : List SafeArc).length)) = false := by
    simp
  unfold Part003.mergeWraparound
  rw [hb]
  simp

/-- The `part_002` merge leaves a single arc alone (`length > 1` fails). -/
theorem Part002.mergeWraparound_singleton002 (M : JsMath) (o : RepulsionOrbitOptions)
    (a : SafeArc) : Part002.mergeWraparound M o [a] = [a] := by
  have hb : (sampleSafe M o 0 && sampleSafe M o (numAngleSamples - 1) &&
      decide (1 < ([a] : List SafeArc).length)) = false := by
    simp
  unfold Part002.mergeWraparound
  rw [hb]
  simp

/-- When every real sample is safe, the `part_003` run builder started
with no pending run discovers exactly one run, from the first angle it
sees to `2π`. -/
theorem Part003.buildArcs_allSafe_none (M : JsMath) (o : RepulsionOrbitOptions)
    (hall : ∀ j, j < 180 → sampleSafe M o j = true) :
    ∀ (n i : ℕ), i + n = 181 → i ≤ 179 →
      Part003.buildArcs M o (List.range' i n) none =
        [⟨sampleAngle M i, 2 * M.PI, 2 * M.PI - sampleAngle M i⟩] := by
  intro n
  cases n with
  | zero => intro i h hi; omega
  | succ n =>
    intro i h hi
    rw [List.range'_succ]
    simp only [Part003.buildArcs, hall i (by omega), if_true]
    by_cases h179 : i = 179
    · subst h179
      have hn1 : n = 1 := by omega
      subst hn1
      rw [List.range'_succ]
      simp [Part003.buildArcs, sampleSafe_numSamples M o, sampleAngle_numSamples]
    · exact Part003.buildArcs_allSafe M o hall n (i + 1) (sampleAngle M i)
        (by omega) (by omega)

/-- All samples safe ⇒ `part_003` discovers the single full-circle arc
`[0, 2π)`. -/
theorem Part003.safeArcs_allSafe (M : JsMath) (o : RepulsionOrbitOptions)
    (hall : ∀ j, j < 180 → sampleSafe M o j = true) :
    Part003.safeArcs M o = [⟨0, 2 * M.PI, 2 * M.PI⟩] := by
  have hraw : Part003.safeArcsRaw M o = [⟨0, 2 * M.PI, 2 * M.PI⟩] := by
    unfold Part003.safeArcsRaw
    rw [show numAngleSamples + 1 = 181 from rfl, List.range_eq_range',
      Part003.buildArcs_allSafe_none M o hall 181 0 (by omega) (by omega), sampleAngle_zero]
    norm_num
  unfold Part003.safeArcs
  rw [hraw]
  exact Part003.mergeWraparound_singleton M o _

/-- A sampled angle below index 180 is below `2π` (for positive `π`). -/
theorem sampleAngle_lt_two_pi (M : JsMath) (hp : 0 < M.PI) (i : ℕ) (hi : i < 180) :
    sampleAngle M i < 2 * M.PI := by
  have hcast : (i : ℚ) < 180 := by exact_mod_cast hi
  have hstep : 0 < 2 * M.PI / 180 := by positivity
  have h1 : (i : ℚ) * (2 * M.PI / 180) < 180 * (2 * M.PI / 180) :=
    mul_lt_mul_of_pos_right hcast hstep
  have h2 : (180 : ℚ) * (2 * M.PI / 180) = 2 * M.PI := by ring
  unfold sampleAngle angleSampleStep numAngleSamples
  push_cast
  linarith [h1, h2.ge]

/-- When every real sample is safe, the `part_002` run builder started on
a pending run below `2π` yields that run closed at `2π`. -/
theorem Part002.buildArcs_allSafe002 (M : JsMath) (o : RepulsionOrbitOptions)
    (hall : ∀ j, j < 180 → sampleSafe M o j = true) :
    ∀ (n i : ℕ) (s : ℚ), i + n = 181 → i ≤ 179 → s < 2 * M.PI →
      Part002.buildArcs M o (List.range' i n) (some s) = [⟨s, 2 * M.PI, 2 * M.PI - s⟩] := by
  intro n
  induction n with
  | zero => intro i s h hi _; omega
  | succ n ih =>
    intro i s h hi hs
    rw [List.range'_succ]
    by_cases h179 : i = 179
    · subst h179
      have hn1 : n = 1 := by omega
      subst hn1
      rw [List.range'_succ]
      simp [Part002.buildArcs, hall 179 (by omega), sampleSafe_numSamples M o,
        sampleAngle_numSamples, hs]
    · simp only [Part002.buildArcs, hall i (by omega), if_true]
      exact ih (i + 1) s (by omega) (by omega) hs

/-- `part_002` variant of `buildArcs_allSafe_none` (positive `π` needed
for the positive-length guard at the closing step). -/
theorem Part002.buildArcs_allSafe_none002 (M : JsMath) (o : RepulsionOrbitOptions)
    (hp : 0 < M.PI) (hall : ∀ j, j < 180 → sampleSafe M o j = true) :
    ∀ (n i : ℕ), i + n = 181 → i ≤ 179 →
      Part002.buildArcs M o (List.range' i n) none =
        [⟨sampleAngle M i, 2 * M.PI, 2 * M.PI - sampleAngle M i⟩] := by
  intro n
  cases n with
  | zero => intro i h hi; omega
  | succ n =>
    intro i h hi
    rw [List.range'_succ]
    simp only [Part002.buildArcs, hall i (by omega), if_true]
    by_cases h179 : i = 179
    · subst h179
      have hn1 : n = 1 := by omega
      subst hn1
      rw [List.range'_succ]
      simp [Part002.buildArcs, sampleSafe_numSamples M o, sampleAngle_numSamples,
        sampleAngle_lt_two_pi M hp 179 (by omega)]
    · exact Part002.buildArcs_allSafe002 M o hall n (i + 1) (sampleAngle M i)
        (by omega) (by omega) (sampleAngle_lt_two_pi M hp i (by omega))

/-- All samples safe ⇒ `part_002` discovers the single full-circle arc
`[0, 2π)` (the merge guard `arcs.length > 1` fails on one arc). -/
theorem Part002.safeArcs_allSafe002 (M : JsMath) (o : RepulsionOrbitOptions) (hp : 0 < M.PI)
    (hall : ∀ j, j < 180 → sampleSafe M o j = true) :
    Part002.safeArcs M o = [⟨0, 2 * M.PI, 2 * M.PI⟩] := by
  have hraw : Part002.safeArcsRaw M o = [⟨0, 2 * M.PI, 2 * M.PI⟩] := by
    unfold Part002.safeArcsRaw
    rw [show numAngleSamples + 1 = 181 from rfl, List.range_eq_range',
      Part002.buildArcs_allSafe_none002 M o hp hall 181 0 (by omega) (by omega),
      sampleAngle_zero]
    norm_num
  unfold Part002.safeArcs
  rw [hraw]
  exact Part002.mergeWraparound_singleton002 M o _

/-- Any bounded `Math` keeps every sample of the reference scenario safe
(the orbit stays at least 108 px away from every viewport edge). -/
theorem scenario_allSafe (M : JsMath) (hB : M.Bounded) :
    ∀ j, j < 180 → sampleSafe M scenarioOpts j = true := by
  intro j hj
  obtain ⟨hc1, hc2, hs1, hs2⟩ := hB (sampleAngle M j)
  simp only [sampleSafe, numAngleSamples, hj, decide_eq_true_eq, isAngleSafe,
    mainButtonCenterX, mainButtonCenterY, scenarioOpts, Bool.and_eq_true, ge_iff_le]
  refine ⟨trivial, ⟨⟨?_, ?_⟩, ?_⟩, ?_⟩ <;> linarith

/-- `flatMath` is a bounded `Math` model. -/
theorem flatMath_bounded : flatMath.Bounded := by
  intro θ
  norm_num [flatMath, JsMath.Bounded]

/-- `sliverMath` is a bounded `Math` model. -/
theorem sliverMath_bounded : sliverMath.Bounded := by
  intro θ
  refine ⟨by norm_num [sliverMath], by norm_num [sliverMath], ?_, ?_⟩ <;>
    (simp only [sliverMath]; split <;> norm_num)

/-- No sampled angle of `sliverMath` hits the sliver at `22/49`. -/
theorem sliver_sample_ne (j : ℕ) : sampleAngle sliverMath j ≠ 22 / 49 := by
  unfold sampleAngle angleSampleStep numAngleSamples sliverMath
  intro h
  have h7 : (7 : ℚ) * j = 90 := by
    field_simp at h
    linarith
  have h7' : 7 * j = 90 := by exact_mod_cast h7
  omega

/-- Every sample is safe in the sliver scenario: the sampled sines are
all 0, so every sampled box is the same safe box near the corner. -/
theorem sliver_allSafe : ∀ j, j < 180 → sampleSafe sliverMath sliverOpts j = true := by
  intro j hj
  simp only [sampleSafe, numAngleSamples, hj, decide_eq_true_eq, isAngleSafe,
    mainButtonCenterX, mainButtonCenterY, sliverOpts, Bool.and_eq_true, ge_iff_le]
  rw [show sliverMath.cos (sampleAngle sliverMath j) = 0 from rfl,
    show sliverMath.sin (sampleAngle sliverMath j) = 0 from
      if_neg (sliver_sample_ne j)]
  norm_num

/-- One placement-loop step of `part_003` grows the accumulator by
exactly one item whenever arcs exist and the accumulator is not full. -/
theorem Part003.placeStep_length (M : JsMath) (o : RepulsionOrbitOptions)
    (arcs : List SafeArc) (slot : ℚ) (acc : List ItemPosition) (i : ℕ)
    (harcs : arcs ≠ []) (hacc : acc.length < o.numItems) :
    (Part003.placeStep M o arcs slot acc i).length = acc.length + 1 := by
  simp only [Part003.placeStep]
  cases hfa : Part003.findAngleInArcs (((i : ℚ) + 1 / 2) * slot) 0 arcs with
  | some θ => simp [hfa]
  | none => simp [hfa, hacc, harcs]

/-- The `part_003` placement loop yields one position per item. -/
theorem Part003.positionsList_length (M : JsMath) (o : RepulsionOrbitOptions)
    (arcs : List SafeArc) (slot : ℚ) (harcs : arcs ≠ []) :
    (Part003.positionsList M o arcs slot).length = o.numItems := by
  suffices h : ∀ (idxs : List ℕ) (acc : List ItemPosition),
      acc.length + idxs.length ≤ o.numItems →
      (idxs.foldl (Part003.placeStep M o arcs slot) acc).length =
        acc.length + idxs.length by
    simpa [Part003.positionsList] using h (List.range o.numItems) [] (by simp)
  intro idxs
  induction idxs with
  | nil => intro acc _; simp
  | cons i idxs ih =>
    intro acc h
    simp only [List.length_cons] at h
    rw [List.foldl_cons]
    have hstep := Part003.placeStep_length M o arcs slot acc i harcs (by omega)
    have hrec := ih (Part003.placeStep M o arcs slot acc i) (by rw [hstep]; omega)
    rw [hrec, hstep]
    simp only [List.length_cons]
    omega

/-- One placement-loop step of `part_002` always pushes exactly one
item (found or fallback). -/
theorem Part002.placeStep_length002 (M : JsMath) (o : RepulsionOrbitOptions)
    (arcs : List SafeArc) (slot : ℚ) (acc : List ItemPosition) (i : ℕ) :
    (Part002.placeStep M o arcs slot acc i).length = acc.length + 1 := by
  simp only [Part002.placeStep]
  cases hfa : Part002.findAngleInArcs (((i : ℚ) + 1 / 2) * slot) 0 arcs with
  | some θ => simp [hfa]
  | none => simp [hfa]

/-- The `part_002` placement loop yields one position per item. -/
theorem Part002.positionsLoop_length (M : JsMath) (o : RepulsionOrbitOptions)
    (arcs : List SafeArc) (slot : ℚ) :
    ((List.range o.numItems).foldl (Part002.placeStep M o arcs slot) []).length =
      o.numItems := by
  suffices h : ∀ (idxs : List ℕ) (acc : List ItemPosition),
      (idxs.foldl (Part002.placeStep M o arcs slot) acc).length =
        acc.length + idxs.length by
    simpa using h (List.range o.numItems) []
  intro idxs
  induction idxs with
  | nil => intro acc; simp
  | cons i idxs ih =>
    intro acc
    rw [List.foldl_cons, ih, Part002.placeStep_length002]
    simp only [List.length_cons]
    omega

/-- On a single arc starting at 0, a target within `[0, length + ε)` is
claimed by that arc at the un-normalized angle `target` itself. -/
theorem Part003.findAngleInArcs_single (B L t : ℚ) (h0 : 0 ≤ t) (hL : t < L + 1 / 10000) :
    Part003.findAngleInArcs t 0 [⟨0, B, L⟩] = some t := by
  simp only [Part003.findAngleInArcs]
  rw [if_pos ⟨h0, by linarith⟩]
  norm_num

/-- With the single full arc `[0, L)` and slot `L / numItems`, the
`part_003` placement loop places item `i` at the normalized angle
`(i + 1/2) · L / numItems`. -/
theorem Part003.positionsList_single (M : JsMath) (o : RepulsionOrbitOptions) (B L : ℚ)
    (hL : 0 < L) :
    Part003.positionsList M o [⟨0, B, L⟩] (L / o.numItems) =
      (List.range o.numItems).map
        (fun (i : ℕ) => mkItemPosition M o (jsMod (((i : ℚ) + 1 / 2) * (L / o.numItems))
          (2 * M.PI))) := by
  suffices h : ∀ (idxs : List ℕ) (acc : List ItemPosition), (∀ i ∈ idxs, i < o.numItems) →
      idxs.foldl (Part003.placeStep M o [⟨0, B, L⟩] (L / o.numItems)) acc =
        acc ++ idxs.map (fun (i : ℕ) => mkItemPosition M o
          (jsMod (((i : ℚ) + 1 / 2) * (L / o.numItems)) (2 * M.PI))) by
    simpa [Part003.positionsList] using
      h (List.range o.numItems) [] (fun i hi => List.mem_range.mp hi)
  intro idxs
  induction idxs with
  | nil => intro acc _; simp
  | cons i idxs ih =>
    intro acc hmem
    have hin : i < o.numItems := hmem i (by simp)
    have hnq : (0 : ℚ) < o.numItems := by
      have : 0 < o.numItems := by omega
      exact_mod_cast this
    have hslot : 0 < L / o.numItems := div_pos hL hnq
    have h0 : 0 ≤ ((i : ℚ) + 1 / 2) * (L / o.numItems) := by positivity
    have hi2 : (i : ℚ) + 1 / 2 < o.numItems := by
      have : (i : ℚ) + 1 ≤ o.numItems := by exact_mod_cast hin
      linarith
    have hlt : ((i : ℚ) + 1 / 2) * (L / o.numItems) < L := by
      have hm := mul_lt_mul_of_pos_right hi2 hslot
      have he : (o.numItems : ℚ) * (L / o.numItems) = L := by field_simp
      linarith
    rw [List.foldl_cons]
    have hstep : Part003.placeStep M o [⟨0, B, L⟩] (L / o.numItems) acc i =
        acc ++ [mkItemPosition M o
          (jsMod (((i : ℚ) + 1 / 2) * (L / o.numItems)) (2 * M.PI))] := by
      simp only [Part003.placeStep]
      rw [Part003.findAngleInArcs_single B L _ h0 (by linarith)]
    rw [hstep, ih _ (fun j hj => hmem j (by simp [hj]))]
    simp

/-- C4: full-circle even spacing, universally.  For every `Math` model
with `π > 3`, every open configuration with at least one item and a
positive orbit radius, whenever all 180 sampled angles are safe (the
claim's "viewport large enough" condition) the list of returned angles
for `N = numItems` items is exactly
`[(0 + 1/2)·(2π/N), (1 + 1/2)·(2π/N), …, (N - 1 + 1/2)·(2π/N)]` —
evenly spaced by `2π/N` and offset by half a slot (the claim's
"approximately" is realized exactly in the model's arithmetic; at
`N = 6` these are 30°, 90°, 150°, 210°, 270°, 330°). -/
theorem claim_C4_full_circle_spacing (M : JsMath) (o : RepulsionOrbitOptions)
    (hopen : o.isOpen = true) (hn : o.numItems ≠ 0) (hr : 0 < o.orbitRadius)
    (hp : 3 < M.PI) (hall : ∀ j, j < 180 → sampleSafe M o j = true) :
    (Part003.calculatedPositions M o).map (fun p => p.angle) =
      (List.range o.numItems).map
        (fun (i : ℕ) => ((i : ℚ) + 1 / 2) * (2 * M.PI / o.numItems)) := by
  have hp0 : (0 : ℚ) < M.PI := by linarith
  have hnq : (0 : ℚ) < o.numItems := by
    have h : 0 < o.numItems := Nat.pos_of_ne_zero hn
    exact_mod_cast h
  have hslot : (0 : ℚ) < 2 * M.PI / o.numItems := by positivity
  have harcs := Part003.safeArcs_allSafe M o hall
  unfold Part003.calculatedPositions
  rw [if_neg (by push_neg; exact ⟨by simp [hopen], hn, by linarith⟩), harcs]
  rw [if_neg (by simp : ¬ ([⟨0, 2 * M.PI, 2 * M.PI⟩] : List SafeArc) = [])]
  have htot : totalSafeAngleLength [(⟨0, 2 * M.PI, 2 * M.PI⟩ : SafeArc)] = 2 * M.PI := by
    simp [totalSafeAngleLength]
  rw [htot]
  rw [if_neg (by linarith : ¬ (2 * M.PI < 1 / 1000))]
  dsimp only
  rw [show List.insertionSort arcStartLE [(⟨0, 2 * M.PI, 2 * M.PI⟩ : SafeArc)] =
    [⟨0, 2 * M.PI, 2 * M.PI⟩] from rfl]
  rw [Part003.positionsList_single M o (2 * M.PI) (2 * M.PI) (by linarith)]
  have hbound : ∀ i, i < o.numItems →
      0 ≤ ((i : ℚ) + 1 / 2) * (2 * M.PI / o.numItems) ∧
      ((i : ℚ) + 1 / 2) * (2 * M.PI / o.numItems) < 2 * M.PI := by
    intro i hin
    have h0 : (0 : ℚ) ≤ ((i : ℚ) + 1 / 2) * (2 * M.PI / o.numItems) := by positivity
    have hi2 : (i : ℚ) + 1 / 2 < o.numItems := by
      have h1 : (i : ℚ) + 1 ≤ o.numItems := by exact_mod_cast hin
      linarith
    have hm := mul_lt_mul_of_pos_right hi2 hslot
    have he : (o.numItems : ℚ) * (2 * M.PI / o.numItems) = 2 * M.PI := by field_simp
    exact ⟨h0, by linarith⟩
  have hmod : ∀ i ∈ List.range o.numItems,
      mkItemPosition M o (jsMod (((i : ℚ) + 1 / 2) * (2 * M.PI / (o.numItems : ℚ))) (2 * M.PI)) =
        mkItemPosition M o (((i : ℚ) + 1 / 2) * (2 * M.PI / (o.numItems : ℚ))) := by
    intro i hi
    obtain ⟨h0, hlt⟩ := hbound i (List.mem_range.mp hi)
    rw [jsMod_eq_self _ _ h0 hlt]
  rw [List.map_congr_left hmod]
  have hpair : List.Pairwise angleLE ((List.range o.numItems).map
      (fun (i : ℕ) => mkItemPosition M o (((i : ℚ) + 1 / 2) * (2 * M.PI / (o.numItems : ℚ))))) := by
    rw [List.pairwise_map]
    refine (List.pairwise_lt_range o.numItems).imp ?_
    intro a b hab
    show angleLE _ _
    simp only [angleLE, mkItemPosition]
    have hle : (a : ℚ) + 1 / 2 ≤ (b : ℚ) + 1 / 2 := by
      have h : (a : ℚ) ≤ b := by exact_mod_cast hab.le
      linarith
    exact mul_le_mul_of_nonneg_right hle hslot.le
  rw [List.Sorted.insertionSort_eq hpair]
  rw [List.map_map]
  rfl

/-- C4 witness: the reference scenario (viewport 800×600, main control
at (400, 300), orbit radius 100, item size 40, menu open, 6 items) with
the bounded model `flatMath` (`π := 22/7`) satisfies every hypothesis —
all 180 samples are safe — and the six returned angles are the six
half-slot multiples of `2π/6`. -/
theorem claim_C4_witness :
    (Part003.calculatedPositions flatMath scenarioOpts).map (fun p => p.angle) =
      (List.range scenarioOpts.numItems).map
        (fun (i : ℕ) => ((i : ℚ) + 1 / 2) * (2 * flatMath.PI / scenarioOpts.numItems)) :=
  claim_C4_full_circle_spacing flatMath scenarioOpts rfl (by norm_num [scenarioOpts])
    (by norm_num [scenarioOpts]) (by norm_num [flatMath])
    (scenario_allSafe flatMath flatMath_bounded)

/-- Under the non-degenerate conditions, `part_003` returns one position
per item. -/
theorem Part003.calculatedPositions_length (M : JsMath) (o : RepulsionOrbitOptions)
    (hopen : o.isOpen = true) (hn : o.numItems ≠ 0) (hr : 0 < o.orbitRadius)
    (h3arcs : Part003.safeArcs M o ≠ [])
    (h3tot : ¬ totalSafeAngleLength (Part003.safeArcs M o) < 1 / 1000) :
    (Part003.calculatedPositions M o).length = o.numItems := by
  have hcond : ¬ (¬ o.isOpen ∨ o.numItems = 0 ∨ o.orbitRadius ≤ 0) := by
    push_neg
    exact ⟨by simp [hopen], hn, by linarith⟩
  unfold Part003.calculatedPositions
  rw [if_neg hcond]
  dsimp only
  rw [if_neg h3arcs, if_neg h3tot, List.length_insertionSort]
  apply Part003.positionsList_length
  intro hnil
  apply h3arcs
  have hlen := congrArg List.length hnil
  rw [List.length_insertionSort] at hlen
  exact List.length_eq_zero.mp hlen

/-- Under the non-degenerate conditions, `part_002` returns one position
per item (in the stacking branch as well as the walking branch). -/
theorem Part002.calculatedPositions_length002 (M : JsMath) (o : RepulsionOrbitOptions)
    (hopen : o.isOpen = true) (hn : o.numItems ≠ 0) (hr : 0 < o.orbitRadius)
    (h2arcs : Part002.safeArcs M o ≠ []) :
    (Part002.calculatedPositions M o).length = o.numItems := by
  have hcond : ¬ (¬ o.isOpen ∨ o.numItems = 0 ∨ o.orbitRadius ≤ 0) := by
    push_neg
    exact ⟨by simp [hopen], hn, by linarith⟩
  unfold Part002.calculatedPositions
  rw [if_neg hcond]
  dsimp only
  rw [if_neg h2arcs]
  by_cases htot : totalSafeAngleLength (Part002.safeArcs M o) < Part002.VERY_SMALL_NUMBER
  · rw [if_pos htot, List.length_insertionSort, List.length_map, List.length_range]
  · rw [if_neg htot, List.length_insertionSort]
    exact Part002.positionsLoop_length M o _ _

/-- C10: for every open-menu input with at least one item, positive
orbit radius, discovered safe arcs, and total safe length not below the
degenerate epsilon, both placement variants return exactly `numItems`
positions — the arc walk or the fallback places every item. -/
theorem claim_C10_output_cardinality (M : JsMath) (o : RepulsionOrbitOptions)
    (hopen : o.isOpen = true) (hn : o.numItems ≠ 0) (hr : 0 < o.orbitRadius)
    (h3arcs : Part003.safeArcs M o ≠ [])
    (h3tot : ¬ totalSafeAngleLength (Part003.safeArcs M o) < 1 / 1000)
    (h2arcs : Part002.safeArcs M o ≠ []) :
    (Part003.calculatedPositions M o).length = o.numItems ∧
    (Part002.calculatedPositions M o).length = o.numItems :=
  ⟨Part003.calculatedPositions_length M o hopen hn hr h3arcs h3tot,
    Part002.calculatedPositions_length002 M o hopen hn hr h2arcs⟩

/-- C10 witness: in the reference scenario with `flatMath` both variants
return exactly 6 positions. -/
theorem claim_C10_witness :
    (Part003.calculatedPositions flatMath scenarioOpts).length = scenarioOpts.numItems ∧
    (Part002.calculatedPositions flatMath scenarioOpts).length = scenarioOpts.numItems :=
  claim_C10_output_cardinality flatMath scenarioOpts rfl (by norm_num [scenarioOpts])
    (by norm_num [scenarioOpts])
    (by
      rw [Part003.safeArcs_allSafe flatMath scenarioOpts
        (scenario_allSafe flatMath flatMath_bounded)]
      simp)
    (by
      rw [Part003.safeArcs_allSafe flatMath scenarioOpts
        (scenario_allSafe flatMath flatMath_bounded)]
      simp [totalSafeAngleLength, flatMath]
      norm_num)
    (by
      rw [Part002.safeArcs_allSafe002 flatMath scenarioOpts (by norm_num [flatMath])
        (scenario_allSafe flatMath flatMath_bounded)]
      simp)

/-- C7 (amended): when no arc claims an item's target in concatenated
space, neither variant fails or skips the item — both place it
deterministically — but they differ: `part_002` places it at the start
angle of the first safe arc (normalized), as the claim states, while
`part_003` places it at the midpoint `start + length/2` of the first
safe arc (normalized), not at its start. -/
theorem claim_C7_fallback_behavior (M : JsMath) (o : RepulsionOrbitOptions)
    (arcs : List SafeArc) (slot : ℚ) (acc : List ItemPosition) (i : ℕ)
    (h2 : Part002.findAngleInArcs (((i : ℚ) + 1 / 2) * slot) 0 arcs = none)
    (h3 : Part003.findAngleInArcs (((i : ℚ) + 1 / 2) * slot) 0 arcs = none)
    (hacc : acc.length < o.numItems) (hne : arcs ≠ []) :
    Part002.placeStep M o arcs slot acc i =
      acc ++ [mkItemPosition M o (Part002.fallbackAngle M arcs)] ∧
    Part002.fallbackAngle M arcs = jsMod (arcs.headD ⟨0, 0, 0⟩).start (2 * M.PI) ∧
    Part003.placeStep M o arcs slot acc i =
      acc ++ [mkItemPosition M o (Part003.fallbackAngle M arcs)] ∧
    Part003.fallbackAngle M arcs =
      jsMod ((arcs.headD ⟨0, 0, 0⟩).start + (arcs.headD ⟨0, 0, 0⟩).length / 2)
        (2 * M.PI) := by
  refine ⟨?_, rfl, ?_, rfl⟩
  · simp only [Part002.placeStep]
    rw [h2]
  · simp only [Part003.placeStep]
    rw [h3]
    simp [hacc, hne]

/-- C7 (counterexample): with the single arc `{start 2, end 3, length 1}`
and an unclaimed target `(0 + 1/2) · 5` (no arc claims it), `part_003`
places the item at the midpoint `5/2` of the arc, which differs from the
start angle `2 % 2π = 2` the claim prescribes. -/
theorem claim_C7_counterexample :
    Part003.placeStep flatMath scenarioOpts [⟨2, 3, 1⟩] 5 [] 0 =
      [mkItemPosition flatMath scenarioOpts (5 / 2)] ∧
    (5 / 2 : ℚ) ≠ jsMod (2 : ℚ) (2 * flatMath.PI) := by
  constructor
  · have hnone : Part003.findAngleInArcs ((((0 : ℕ) : ℚ) + 1 / 2) * 5) 0
        [(⟨2, 3, 1⟩ : SafeArc)] = none := by
      simp only [Part003.findAngleInArcs]
      rw [if_neg (by norm_num)]
    have hfb : Part003.fallbackAngle flatMath [(⟨2, 3, 1⟩ : SafeArc)] = 5 / 2 := by
      unfold Part003.fallbackAngle
      simp only [List.headD]
      rw [show ((⟨2, 3, 1⟩ : SafeArc).start + (⟨2, 3, 1⟩ : SafeArc).length / 2 : ℚ) =
        5 / 2 by norm_num]
      exact jsMod_eq_self (5 / 2) (2 * flatMath.PI) (by norm_num) (by norm_num [flatMath])
    simp only [Part003.placeStep]
    rw [hnone]
    simp [hfb, scenarioOpts]
  · rw [jsMod_eq_self 2 (2 * flatMath.PI) (by norm_num) (by norm_num [flatMath])]
    norm_num

/-- C7 witness: the concrete unclaimed-target situation of the
counterexample, run through both variants' fallbacks. -/
theorem claim_C7_witness :
    Part002.placeStep flatMath scenarioOpts [⟨2, 3, 1⟩] 5 [] 0 =
      [] ++ [mkItemPosition flatMath scenarioOpts
        (Part002.fallbackAngle flatMath [⟨2, 3, 1⟩])] ∧
    Part002.fallbackAngle flatMath [⟨2, 3, 1⟩] =
      jsMod (([(⟨2, 3, 1⟩ : SafeArc)].headD ⟨0, 0, 0⟩).start) (2 * flatMath.PI) ∧
    Part003.placeStep flatMath scenarioOpts [⟨2, 3, 1⟩] 5 [] 0 =
      [] ++ [mkItemPosition flatMath scenarioOpts
        (Part003.fallbackAngle flatMath [⟨2, 3, 1⟩])] ∧
    Part003.fallbackAngle flatMath [⟨2, 3, 1⟩] =
      jsMod (([(⟨2, 3, 1⟩ : SafeArc)].headD ⟨0, 0, 0⟩).start +
        ([(⟨2, 3, 1⟩ : SafeArc)].headD ⟨0, 0, 0⟩).length / 2) (2 * flatMath.PI) :=
  claim_C7_fallback_behavior flatMath scenarioOpts [⟨2, 3, 1⟩] 5 [] 0
    (by
      simp only [Part002.findAngleInArcs]
      rw [if_neg (by norm_num [Part002.VERY_SMALL_NUMBER])])
    (by
      simp only [Part003.findAngleInArcs]
      rw [if_neg (by norm_num)])
    (by norm_num [scenarioOpts]) (by simp)

/-- Every arc produced by the `part_003` run builder satisfies `SpecArc`:
walking indices `i, i+1, …, 180` from either pending state only ever
closes runs of consecutive safe samples at their first unsafe sample. -/
theorem Part003.buildArcs_spec (M : JsMath) (o : RepulsionOrbitOptions) :
    ∀ n : ℕ,
      (∀ i, i + n = 181 →
        ∀ arc ∈ Part003.buildArcs M o (List.range' i n) none, SpecArc M o arc) ∧
      (∀ i j, i + n = 181 → j < i →
        (∀ m, j ≤ m → m < i → sampleSafe M o m = true) →
        ∀ arc ∈ Part003.buildArcs M o (List.range' i n) (some (sampleAngle M j)),
          SpecArc M o arc) := by
  intro n
  induction n with
  | zero =>
    constructor
    · intro i _ arc harc
      simp [Part003.buildArcs] at harc
    · intro i j _ _ _ arc harc
      simp [Part003.buildArcs] at harc
  | succ n ih =>
    constructor
    · intro i hsum arc harc
      rw [List.range'_succ] at harc
      by_cases hsafe : sampleSafe M o i = true
      · simp only [Part003.buildArcs, hsafe, if_true] at harc
        exact ih.2 (i + 1) i (by omega) (by omega)
          (fun m hm hm' => by
            have : m = i := by omega
            subst this
            exact hsafe)
          arc harc
      · simp only [Part003.buildArcs, hsafe, if_false, Bool.false_eq_true] at harc
        exact ih.1 (i + 1) (by omega) arc harc
    · intro i j hsum hji hctx arc harc
      rw [List.range'_succ] at harc
      by_cases hsafe : sampleSafe M o i = true
      · simp only [Part003.buildArcs, hsafe, if_true] at harc
        exact ih.2 (i + 1) j (by omega) (by omega)
          (fun m hm hm' => by
            by_cases hmi : m = i
            · subst hmi; exact hsafe
            · exact hctx m hm (by omega))
          arc harc
      · simp only [Part003.buildArcs, hsafe, if_false, Bool.false_eq_true,
          List.mem_cons] at harc
        rcases harc with rfl | harc
        · exact ⟨j, i, hji, by omega, rfl, rfl, rfl, hctx⟩
        · exact ih.1 (i + 1) (by omega) arc harc

/-- Every raw arc of `part_003` satisfies `SpecArc`. -/
theorem Part003.safeArcsRaw_spec (M : JsMath) (o : RepulsionOrbitOptions) :
    ∀ arc ∈ Part003.safeArcsRaw M o, SpecArc M o arc := by
  intro arc harc
  unfold Part003.safeArcsRaw at harc
  rw [show numAngleSamples + 1 = 181 from rfl, List.range_eq_range'] at harc
  exact (Part003.buildArcs_spec M o 181).1 0 rfl arc harc

/-- Every arc produced by the `part_002` run builder satisfies `SpecArc`
(the positive-length guard only ever drops a candidate). -/
theorem Part002.buildArcs_spec002 (M : JsMath) (o : RepulsionOrbitOptions) :
    ∀ n : ℕ,
      (∀ i, i + n = 181 →
        ∀ arc ∈ Part002.buildArcs M o (List.range' i n) none, SpecArc M o arc) ∧
      (∀ i j, i + n = 181 → j < i →
        (∀ m, j ≤ m → m < i → sampleSafe M o m = true) →
        ∀ arc ∈ Part002.buildArcs M o (List.range' i n) (some (sampleAngle M j)),
          SpecArc M o arc) := by
  intro n
  induction n with
  | zero =>
    constructor
    · intro i _ arc harc
      simp [Part002.buildArcs] at harc
    · intro i j _ _ _ arc harc
      simp [Part002.buildArcs] at harc
  | succ n ih =>
    constructor
    · intro i hsum arc harc
      rw [List.range'_succ] at harc
      by_cases hsafe : sampleSafe M o i = true
      · simp only [Part002.buildArcs, hsafe, if_true] at harc
        exact ih.2 (i + 1) i (by omega) (by omega)
          (fun m hm hm' => by
            have : m = i := by omega
            subst this
            exact hsafe)
          arc harc
      · simp only [Part002.buildArcs, hsafe, if_false, Bool.false_eq_true] at harc
        exact ih.1 (i + 1) (by omega) arc harc
    · intro i j hsum hji hctx arc harc
      rw [List.range'_succ] at harc
      by_cases hsafe : sampleSafe M o i = true
      · simp only [Part002.buildArcs, hsafe, if_true] at harc
        exact ih.2 (i + 1) j (by omega) (by omega)
          (fun m hm hm' => by
            by_cases hmi : m = i
            · subst hmi; exact hsafe
            · exact hctx m hm (by omega))
          arc harc
      · simp only [Part002.buildArcs, hsafe, if_false, Bool.false_eq_true] at harc
        by_cases hguard : sampleAngle M j < sampleAngle M i
        · rw [if_pos hguard] at harc
          rcases List.mem_cons.mp harc with rfl | harc
          · exact ⟨j, i, hji, by omega, rfl, rfl, rfl, hctx⟩
          · exact ih.1 (i + 1) (by omega) arc harc
        · rw [if_neg hguard] at harc
          exact ih.1 (i + 1) (by omega) arc harc

/-- Every raw arc of `part_002` satisfies `SpecArc`. -/
theorem Part002.safeArcsRaw_spec002 (M : JsMath) (o : RepulsionOrbitOptions) :
    ∀ arc ∈ Part002.safeArcsRaw M o, SpecArc M o arc := by
  intro arc harc
  unfold Part002.safeArcsRaw at harc
  rw [show numAngleSamples + 1 = 181 from rfl, List.range_eq_range'] at harc
  exact (Part002.buildArcs_spec002 M o 181).1 0 rfl arc harc

/-- A `SpecArc` has length at least one sample step. -/
theorem SpecArc.step_le_length (M : JsMath) (o : RepulsionOrbitOptions) (arc : SafeArc)
    (hp : 0 < M.PI) (h : SpecArc M o arc) : angleSampleStep M ≤ arc.length := by
  obtain ⟨a, b, hab, _, _, _, hlen, _⟩ := h
  have hst : 0 < angleSampleStep M := by
    unfold angleSampleStep numAngleSamples
    positivity
  have hcast : (a : ℚ) + 1 ≤ b := by exact_mod_cast hab
  have hmul := mul_le_mul_of_nonneg_right hcast hst.le
  rw [hlen]
  unfold sampleAngle
  nlinarith [hmul]

/-- The second component of an `enumFrom` entry is a list member. -/
theorem snd_mem_of_mem_enumFrom {α : Type} :
    ∀ (l : List α) (n : ℕ) (p : ℕ × α), p ∈ l.enumFrom n → p.2 ∈ l := by
  intro l
  induction l with
  | nil => intro n p hp; simp [List.enumFrom] at hp
  | cons a l ih =>
    intro n p hp
    rcases List.mem_cons.mp hp with rfl | hp
    · exact List.mem_cons_self a l
    · exact List.mem_cons_of_mem a (ih (n + 1) p hp)

/-- Anything in the output of the `part_002` merge is either an original
arc or the merge of two original arcs. -/
theorem Part002.mergeWraparound_mem (M : JsMath) (o : RepulsionOrbitOptions)
    (arcs : List SafeArc) :
    ∀ arc ∈ Part002.mergeWraparound M o arcs, arc ∈ arcs ∨
      ∃ f l, f ∈ arcs ∧ l ∈ arcs ∧
        arc = ⟨l.start, f.stop + 2 * M.PI, l.length + f.length⟩ := by
  intro arc harc
  unfold Part002.mergeWraparound at harc
  repeat' split at harc
  all_goals try exact Or.inl harc
  rename_i firstArc lastArc hf hl
  rcases List.mem_append.mp harc with hin | hin
  · obtain ⟨p, hp, rfl⟩ := List.mem_map.mp hin
    exact Or.inl (snd_mem_of_mem_enumFrom arcs 0 p (List.mem_of_mem_filter hp))
  · exact Or.inr ⟨firstArc, lastArc, List.get?_mem hf, List.get?_mem hl,
      List.mem_singleton.mp hin⟩

/-- A nonempty list of arcs each at least `c` long (for `c ≥ 0`) has
total length at least `c`. -/
theorem totalSafeAngleLength_ge (c : ℚ) (hc : 0 ≤ c) :
    ∀ l : List SafeArc, l ≠ [] → (∀ x ∈ l, c ≤ x.length) → c ≤ totalSafeAngleLength l := by
  intro l
  induction l with
  | nil => intro h; exact absurd rfl h
  | cons x l _ =>
    intro _ hall
    have hx := hall x (List.mem_cons_self x l)
    have hrest : 0 ≤ (l.map (fun a => a.length)).sum := by
      apply List.sum_nonneg
      intro q hq
      obtain ⟨a, ha, rfl⟩ := List.mem_map.mp hq
      exact le_trans hc (hall a (List.mem_cons_of_mem x ha))
    unfold totalSafeAngleLength
    simp only [List.map_cons, List.sum_cons]
    linarith

/-- If `part_002` discovers any arcs at all, their total length is at
least one sample step — in particular (for `π > 3`) far above the
`1e-5` epsilon, so the stacking branch is unreachable. -/
theorem Part002.step_le_total (M : JsMath) (o : RepulsionOrbitOptions) (hp : 0 < M.PI)
    (hne : Part002.safeArcs M o ≠ []) :
    angleSampleStep M ≤ totalSafeAngleLength (Part002.safeArcs M o) := by
  have hst : 0 < angleSampleStep M := by
    unfold angleSampleStep numAngleSamples
    positivity
  apply totalSafeAngleLength_ge _ hst.le _ hne
  intro x hx
  rcases Part002.mergeWraparound_mem M o (Part002.safeArcsRaw M o) x hx with hin | ⟨f, l, hf, hl, rfl⟩
  · exact SpecArc.step_le_length M o x hp (Part002.safeArcsRaw_spec002 M o x hin)
  · have h1 := SpecArc.step_le_length M o f hp (Part002.safeArcsRaw_spec002 M o f hf)
    have h2 := SpecArc.step_le_length M o l hp (Part002.safeArcsRaw_spec002 M o l hl)
    simp only []
    linarith

/-- C3: `part_003` returns an empty sequence exactly when the menu is
closed, `numItems = 0`, `orbitRadius ≤ 0`, no safe arc exists, or the
total safe length is below the degenerate epsilon `1e-3`; in every other
case it returns a non-empty sequence.  Moreover the `part_002` variant
never stacks items: its stacking branch requires a total safe length
below its epsilon `1e-5`, but whenever any arc exists the total is at
least one sample step `2π/180 > 1/30`, so that branch is unreachable. -/
theorem claim_C3_empty_iff_degenerate (M : JsMath) (o : RepulsionOrbitOptions)
    (hp : 3 < M.PI) :
    (Part003.calculatedPositions M o = [] ↔
      (o.isOpen = false ∨ o.numItems = 0 ∨ o.orbitRadius ≤ 0 ∨
        Part003.safeArcs M o = [] ∨
        totalSafeAngleLength (Part003.safeArcs M o) < 1 / 1000)) ∧
    (Part002.safeArcs M o ≠ [] →
      ¬ totalSafeAngleLength (Part002.safeArcs M o) < Part002.VERY_SMALL_NUMBER) := by
  constructor
  · constructor
    · intro hempty
      by_contra hnd
      push_neg at hnd
      obtain ⟨ho, hn, hr, harc, htot⟩ := hnd
      have ho' : o.isOpen = true := by
        revert ho
        cases o.isOpen <;> simp
      have hlen := Part003.calculatedPositions_length M o ho' hn (by linarith) harc
        (by linarith)
      rw [hempty] at hlen
      simp only [List.length_nil] at hlen
      exact hn hlen.symm
    · intro hdisj
      unfold Part003.calculatedPositions
      rcases hdisj with h | h | h | h | h
      · rw [if_pos (Or.inl (by simp [h]))]
      · rw [if_pos (Or.inr (Or.inl h))]
      · rw [if_pos (Or.inr (Or.inr h))]
      · by_cases hcond : ¬ o.isOpen ∨ o.numItems = 0 ∨ o.orbitRadius ≤ 0
        · rw [if_pos hcond]
        · rw [if_neg hcond]
          dsimp only
          rw [if_pos h]
      · by_cases hcond : ¬ o.isOpen ∨ o.numItems = 0 ∨ o.orbitRadius ≤ 0
        · rw [if_pos hcond]
        · rw [if_neg hcond]
          dsimp only
          by_cases harc : Part003.safeArcs M o = []
          · rw [if_pos harc]
          · rw [if_neg harc, if_pos h]
  · intro hne htot
    have hge := Part002.step_le_total M o (by linarith) hne
    have hstep : (1 : ℚ) / 100000 < angleSampleStep M := by
      unfold angleSampleStep numAngleSamples
      push_cast
      linarith
    unfold Part002.VERY_SMALL_NUMBER at htot
    linarith

/-- C3 witness: the reference scenario with `flatMath` instantiates both
the iff (its right side is false there, and the output is indeed
non-empty) and the no-stacking bound. -/
theorem claim_C3_witness :
    (Part003.calculatedPositions flatMath scenarioOpts = [] ↔
      (scenarioOpts.isOpen = false ∨ scenarioOpts.numItems = 0 ∨
        scenarioOpts.orbitRadius ≤ 0 ∨ Part003.safeArcs flatMath scenarioOpts = [] ∨
        totalSafeAngleLength (Part003.safeArcs flatMath scenarioOpts) < 1 / 1000)) ∧
    (Part002.safeArcs flatMath scenarioOpts ≠ [] →
      ¬ totalSafeAngleLength (Part002.safeArcs flatMath scenarioOpts) <
        Part002.VERY_SMALL_NUMBER) :=
  claim_C3_empty_iff_degenerate flatMath scenarioOpts (by norm_num [flatMath])

/-- A run builder started on a pending run at `s` always yields a first
arc starting exactly at `s` (the virtual unsafe sample guarantees the
run closes). -/
theorem Part003.buildArcs_some_head (M : JsMath) (o : RepulsionOrbitOptions) :
    ∀ (n i : ℕ) (s : ℚ), i + n = 181 → i ≤ 180 →
      ∃ e tl, Part003.buildArcs M o (List.range' i n) (some s) =
        ⟨s, e, e - s⟩ :: tl := by
  intro n
  induction n with
  | zero => intro i s h hi; omega
  | succ n ih =>
    intro i s h hi
    rw [List.range'_succ]
    by_cases hsafe : sampleSafe M o i = true
    · simp only [Part003.buildArcs, hsafe, if_true]
      have hi' : i < 180 := by
        by_contra hge
        have h180 : i = 180 := by omega
        subst h180
        rw [sampleSafe_numSamples] at hsafe
        exact absurd hsafe (by simp)
      exact ih (i + 1) s (by omega) (by omega)
    · simp only [Part003.buildArcs, hsafe, if_false, Bool.false_eq_true]
      exact ⟨sampleAngle M i, _, rfl⟩

/-- If the sample at index `i` is safe, the builder started there with no
pending run yields a first arc starting at `sampleAngle i`. -/
theorem Part003.buildArcs_none_head (M : JsMath) (o : RepulsionOrbitOptions) :
    ∀ (n i : ℕ), i + n = 181 → i ≤ 179 → sampleSafe M o i = true →
      ∃ e tl, Part003.buildArcs M o (List.range' i n) none =
        ⟨sampleAngle M i, e, e - sampleAngle M i⟩ :: tl := by
  intro n
  cases n with
  | zero => intro i h hi _; omega
  | succ n =>
    intro i h hi hsafe
    rw [List.range'_succ]
    simp only [Part003.buildArcs, hsafe, if_true]
    exact Part003.buildArcs_some_head M o n (i + 1) (sampleAngle M i) (by omega) (by omega)

/-- If sample 179 is safe, the builder's output (from any pending state)
ends with an arc closing exactly at `2π`. -/
theorem Part003.buildArcs_last (M : JsMath) (o : RepulsionOrbitOptions)
    (h179 : sampleSafe M o 179 = true) :
    ∀ (n i : ℕ), i + n = 181 → i ≤ 179 → ∀ pnd : Option ℚ,
      ∃ l s', Part003.buildArcs M o (List.range' i n) pnd =
        l ++ [⟨s', 2 * M.PI, 2 * M.PI - s'⟩] := by
  intro n
  induction n with
  | zero => intro i h hi _; omega
  | succ n ih =>
    intro i h hi pnd
    rw [List.range'_succ]
    by_cases h179i : i = 179
    · subst h179i
      have hn1 : n = 1 := by omega
      subst hn1
      rw [List.range'_succ]
      cases pnd with
      | none =>
        refine ⟨[], sampleAngle M 179, ?_⟩
        simp [Part003.buildArcs, h179, sampleSafe_numSamples M o, sampleAngle_numSamples]
      | some s =>
        refine ⟨[], s, ?_⟩
        simp [Part003.buildArcs, h179, sampleSafe_numSamples M o, sampleAngle_numSamples]
    · by_cases hsafe : sampleSafe M o i = true
      · cases pnd with
        | none =>
          simp only [Part003.buildArcs, hsafe, if_true]
          exact ih (i + 1) (by omega) (by omega) (some (sampleAngle M i))
        | some s =>
          simp only [Part003.buildArcs, hsafe, if_true]
          exact ih (i + 1) (by omega) (by omega) (some s)
      · cases pnd with
        | none =>
          simp only [Part003.buildArcs, hsafe, if_false, Bool.false_eq_true]
          exact ih (i + 1) (by omega) (by omega) none
        | some s =>
          simp only [Part003.buildArcs, hsafe, if_false, Bool.false_eq_true]
          obtain ⟨l, s', hrec⟩ := ih (i + 1) (by omega) (by omega) none
          exact ⟨⟨s, sampleAngle M i, sampleAngle M i - s⟩ :: l, s', by rw [hrec]; rfl⟩

/-- `splitLast` splits off an explicit final element. -/
theorem splitLast_append (m : List SafeArc) (x : SafeArc) :
    splitLast (m ++ [x]) = some (m, x) := by
  induction m with
  | nil => rfl
  | cons a m ih =>
    simp only [List.cons_append, splitLast]
    rw [show List.append m [x] = m ++ [x] from rfl, ih]

/-- When sample 0 and sample 179 are both safe and more than one raw
arc was found, the first raw arc starts at angle 0, the last raw arc
ends at `2π`, and the merge replaces exactly these two by the single
wrap-around arc `{start: lastArc.start, end: firstArc.end + 2π,
length: lastArc.length + firstArc.length}`, keeping every other arc
(the middle of the list) unchanged. -/
theorem Part003.merge_decomposition (M : JsMath) (o : RepulsionOrbitOptions)
    (h0 : sampleSafe M o 0 = true) (h179 : sampleSafe M o 179 = true)
    (hlen : 1 < (Part003.safeArcsRaw M o).length) :
    ∃ firstArc middle lastArc,
      Part003.safeArcsRaw M o = firstArc :: (middle ++ [lastArc]) ∧
      firstArc.start = 0 ∧ lastArc.stop = 2 * M.PI ∧
      Part003.safeArcs M o = middle ++
        [⟨lastArc.start, firstArc.stop + 2 * M.PI, lastArc.length + firstArc.length⟩] := by
  have hraw_eq : Part003.safeArcsRaw M o =
      Part003.buildArcs M o (List.range' 0 181) none := by
    unfold Part003.safeArcsRaw
    rw [show numAngleSamples + 1 = 181 from rfl, List.range_eq_range']
  obtain ⟨e, tl, hhead⟩ := Part003.buildArcs_none_head M o 181 0 rfl (by omega) h0
  obtain ⟨l, s', hlast⟩ := Part003.buildArcs_last M o h179 181 0 rfl (by omega) none
  rw [← hraw_eq] at hhead hlast
  rw [sampleAngle_zero] at hhead
  cases l with
  | nil =>
    exfalso
    rw [hlast] at hlen
    simp at hlen
  | cons a l' =>
    rw [List.cons_append] at hlast
    have hh : (⟨0, e, e - 0⟩ : SafeArc) :: tl =
        a :: (l' ++ [⟨s', 2 * M.PI, 2 * M.PI - s'⟩]) := hhead.symm.trans hlast
    injection hh with h1 h2
    subst h1
    subst h2
    refine ⟨⟨0, e, e - 0⟩, l', ⟨s', 2 * M.PI, 2 * M.PI - s'⟩, hlast, rfl, rfl, ?_⟩
    unfold Part003.safeArcs Part003.mergeWraparound
    rw [hlast]
    have hguard : (sampleSafe M o 0 && sampleSafe M o (numAngleSamples - 1) &&
        decide (1 < ((⟨0, e, e - 0⟩ : SafeArc) ::
          (l' ++ [⟨s', 2 * M.PI, 2 * M.PI - s'⟩])).length)) = true := by
      rw [show numAngleSamples - 1 = 179 from rfl, h0, h179]
      simp only [Bool.true_and, decide_eq_true_eq, List.length_cons, List.length_append,
        List.length_singleton]
      omega
    rw [if_pos hguard]
    dsimp only
    rw [splitLast_append]

/-- C5: when sample 0 and sample 179 are both safe and more than one raw
arc was found, the first raw arc starts at angle 0, the last raw arc
ends at `2π`, and the merge replaces exactly these two by the single
wrap-around arc `{start: lastArc.start, end: firstArc.end + 2π,
length: lastArc.length + firstArc.length}`, keeping every other arc
(the middle of the list) unchanged. -/
theorem claim_C5_wraparound_merge (M : JsMath) (o : RepulsionOrbitOptions)
    (h0 : sampleSafe M o 0 = true) (h179 : sampleSafe M o 179 = true)
    (hlen : 1 < (Part003.safeArcsRaw M o).length) :
    ∃ firstArc middle lastArc,
      Part003.safeArcsRaw M o = firstArc :: (middle ++ [lastArc]) ∧
      firstArc.start = 0 ∧ lastArc.stop = 2 * M.PI ∧
      Part003.safeArcs M o = middle ++
        [⟨lastArc.start, firstArc.stop + 2 * M.PI, lastArc.length + firstArc.length⟩] :=
  Part003.merge_decomposition M o h0 h179 hlen

/-- C5 witness: under `splitMath` in the 120×120 viewport the samples
form one run starting at 0 and one ending at 2π, and the merge produces
the single wrap-around arc. -/
theorem claim_C5_witness :
    ∃ firstArc middle lastArc,
      Part003.safeArcsRaw splitMath splitOpts = firstArc :: (middle ++ [lastArc]) ∧
      firstArc.start = 0 ∧ lastArc.stop = 2 * splitMath.PI ∧
      Part003.safeArcs splitMath splitOpts = middle ++
        [⟨lastArc.start, firstArc.stop + 2 * splitMath.PI,
          lastArc.length + firstArc.length⟩] :=
  claim_C5_wraparound_merge splitMath splitOpts
    (by with_unfolding_all rfl)
    (by with_unfolding_all rfl)
    (by
      rw [show Part003.safeArcsRaw splitMath splitOpts =
        [⟨0, 506 / 315, 506 / 315⟩, ⟨33 / 7, 44 / 7, 11 / 7⟩] from by with_unfolding_all rfl]
      simp)

/-- Sampled angles are nonnegative (for positive `π`). -/
theorem sampleAngle_nonneg (M : JsMath) (hp : 0 < M.PI) (i : ℕ) : 0 ≤ sampleAngle M i := by
  unfold sampleAngle angleSampleStep numAngleSamples
  positivity

/-- Sampled angles compare like their indices (for positive `π`). -/
theorem sampleAngle_le_iff (M : JsMath) (hp : 0 < M.PI) {x y : ℕ} :
    sampleAngle M x ≤ sampleAngle M y ↔ x ≤ y := by
  have hst : 0 < angleSampleStep M := by
    unfold angleSampleStep numAngleSamples
    positivity
  unfold sampleAngle
  rw [mul_le_mul_right hst]
  exact_mod_cast Iff.rfl

/-- Strict version of `sampleAngle_le_iff`. -/
theorem sampleAngle_lt_iff (M : JsMath) (hp : 0 < M.PI) {x y : ℕ} :
    sampleAngle M x < sampleAngle M y ↔ x < y := by
  have hst : 0 < angleSampleStep M := by
    unfold angleSampleStep numAngleSamples
    positivity
  unfold sampleAngle
  rw [mul_lt_mul_right hst]
  exact_mod_cast Iff.rfl

/-- A successful arc walk lands inside some arc's tolerant span. -/
theorem Part003.findAngleInArcs_spec :
    ∀ (arcs : List SafeArc) (target acc θ : ℚ),
      Part003.findAngleInArcs target acc arcs = some θ →
      ∃ arc ∈ arcs, arc.start ≤ θ ∧ θ < arc.start + arc.length + 1 / 10000 := by
  intro arcs
  induction arcs with
  | nil =>
    intro _ _ _ h
    simp [Part003.findAngleInArcs] at h
  | cons arc rest ih =>
    intro target acc θ h
    simp only [Part003.findAngleInArcs] at h
    by_cases hcond : acc ≤ target ∧ target < acc + arc.length + 1 / 10000
    · rw [if_pos hcond] at h
      injection h with h'
      refine ⟨arc, List.mem_cons_self arc rest, ?_, ?_⟩
      · rw [← h']
        linarith [hcond.1]
      · rw [← h']
        linarith [hcond.2]
    · rw [if_neg hcond] at h
      obtain ⟨a, ha, h1, h2⟩ := ih target (acc + arc.length) θ h
      exact ⟨a, List.mem_cons_of_mem arc ha, h1, h2⟩

/-- Every position built by the `part_003` placement loop has its angle
of the form `θ % 2π` with `θ` inside some arc's tolerant span (the walk
hit or the midpoint fallback). -/
theorem Part003.positionsList_mem_spec (M : JsMath) (o : RepulsionOrbitOptions)
    (arcs : List SafeArc) (slot : ℚ) (hlen : ∀ arc ∈ arcs, 0 ≤ arc.length) :
    ∀ pos ∈ Part003.positionsList M o arcs slot,
      ∃ arc ∈ arcs, ∃ θ : ℚ, arc.start ≤ θ ∧ θ < arc.start + arc.length + 1 / 10000 ∧
        pos.angle = jsMod θ (2 * M.PI) := by
  suffices h : ∀ (idxs : List ℕ) (acc : List ItemPosition),
      (∀ p ∈ acc, ∃ arc ∈ arcs, ∃ θ : ℚ, arc.start ≤ θ ∧
        θ < arc.start + arc.length + 1 / 10000 ∧ p.angle = jsMod θ (2 * M.PI)) →
      ∀ pos ∈ idxs.foldl (Part003.placeStep M o arcs slot) acc,
        ∃ arc ∈ arcs, ∃ θ : ℚ, arc.start ≤ θ ∧ θ < arc.start + arc.length + 1 / 10000 ∧
          pos.angle = jsMod θ (2 * M.PI) by
    intro pos hpos
    exact h (List.range o.numItems) [] (by simp) pos hpos
  intro idxs
  induction idxs with
  | nil => intro acc hacc; exact hacc
  | cons i idxs ih =>
    intro acc hacc
    rw [List.foldl_cons]
    apply ih
    intro p hp
    simp only [Part003.placeStep] at hp
    cases hfa : Part003.findAngleInArcs (((i : ℚ) + 1 / 2) * slot) 0 arcs with
    | some θ =>
      simp only [hfa] at hp
      rcases List.mem_append.mp hp with hp | hp
      · exact hacc p hp
      · rw [List.mem_singleton] at hp
        subst hp
        obtain ⟨arc, hmem, h1, h2⟩ := Part003.findAngleInArcs_spec arcs _ 0 θ hfa
        exact ⟨arc, hmem, θ, h1, h2, rfl⟩
    | none =>
      simp only [hfa] at hp
      by_cases hc : acc.length < o.numItems ∧ arcs ≠ []
      · rw [if_pos hc] at hp
        rcases List.mem_append.mp hp with hp | hp
        · exact hacc p hp
        · rw [List.mem_singleton] at hp
          subst hp
          cases arcs with
          | nil => exact absurd rfl hc.2
          | cons a rest =>
            have ha0 : 0 ≤ a.length := hlen a (List.mem_cons_self a rest)
            refine ⟨a, List.mem_cons_self a rest, a.start + a.length / 2, by linarith,
              by linarith, rfl⟩
      · rw [if_neg hc] at hp
        exact hacc p hp

/-- When its guard is false the `part_003` merge is the identity. -/
theorem Part003.mergeWraparound_eq_self (M : JsMath) (o : RepulsionOrbitOptions)
    (arcs : List SafeArc)
    (h : (sampleSafe M o 0 && sampleSafe M o (numAngleSamples - 1) &&
      decide (1 < arcs.length)) = false) :
    Part003.mergeWraparound M o arcs = arcs := by
  unfold Part003.mergeWraparound
  simp only [h, Bool.false_eq_true, if_false]

/-- A raw-spec arc has nonnegative length and all sampled angles inside
its span (modulo a turn) safe. -/
theorem SpecArc.span_safe (M : JsMath) (o : RepulsionOrbitOptions) (arc : SafeArc)
    (hp : 0 < M.PI) (h : SpecArc M o arc) :
    0 ≤ arc.length ∧
    ∀ i : ℕ, i < 180 → inSpanMod (2 * M.PI) arc (sampleAngle M i) →
      isAngleSafe M o (sampleAngle M i) = true := by
  obtain ⟨a, b, hab, hb180, hstart, hstop, hlen, hctx⟩ := h
  constructor
  · rw [hlen]
    have := (sampleAngle_le_iff M hp (x := a) (y := b)).mpr (by omega)
    linarith
  · intro i hi hin
    rcases hin with ⟨h1, h2⟩ | ⟨h1, h2⟩
    · rw [hstart] at h1
      rw [hstop] at h2
      have hai : a ≤ i := (sampleAngle_le_iff M hp).mp h1
      have hib : i < b := (sampleAngle_lt_iff M hp).mp h2
      have hsafe := hctx i hai hib
      simp only [sampleSafe, numAngleSamples, Bool.and_eq_true, decide_eq_true_eq] at hsafe
      exact hsafe.2
    · exfalso
      rw [hstop] at h2
      have hb2p : sampleAngle M b ≤ sampleAngle M 180 :=
        (sampleAngle_le_iff M hp).mpr hb180
      rw [sampleAngle_numSamples] at hb2p
      have hnn := sampleAngle_nonneg M hp i
      linarith

/-- The sampled safety predicate coincides with the claim's
bounding-box-in-viewport property of the corresponding placed item. -/
theorem isAngleSafe_iff_insideViewport (M : JsMath) (o : RepulsionOrbitOptions) (θ : ℚ) :
    isAngleSafe M o θ = true ↔ insideViewport o (mkItemPosition M o θ) := by
  simp only [isAngleSafe, insideViewport, mkItemPosition, Bool.and_eq_true,
    decide_eq_true_eq, ge_iff_le]
  tauto

/-- Every discovered (post-merge) arc of `part_003` has nonnegative
length, and every sampled angle falling in its span (taken modulo `2π`
for the wrap-around arc) is safe. -/
theorem Part003.safeArcs_span (M : JsMath) (o : RepulsionOrbitOptions) (hp : 0 < M.PI) :
    ∀ arc ∈ Part003.safeArcs M o, 0 ≤ arc.length ∧
      ∀ i : ℕ, i < 180 → inSpanMod (2 * M.PI) arc (sampleAngle M i) →
        isAngleSafe M o (sampleAngle M i) = true := by
  intro arc harc
  by_cases hguard : (sampleSafe M o 0 && sampleSafe M o (numAngleSamples - 1) &&
      decide (1 < (Part003.safeArcsRaw M o).length)) = true
  · have h0 : sampleSafe M o 0 = true := by
      simp only [Bool.and_eq_true] at hguard
      exact hguard.1.1
    have h179 : sampleSafe M o 179 = true := by
      simp only [Bool.and_eq_true] at hguard
      exact hguard.1.2
    have hlen : 1 < (Part003.safeArcsRaw M o).length := by
      simp only [Bool.and_eq_true, decide_eq_true_eq] at hguard
      exact hguard.2
    obtain ⟨f, mid, l, hraw, hf0, hl2p, hmerged⟩ :=
      Part003.merge_decomposition M o h0 h179 hlen
    rw [hmerged] at harc
    rcases List.mem_append.mp harc with hmid | hmerge
    · have hmem : arc ∈ Part003.safeArcsRaw M o := by
        rw [hraw]
        exact List.mem_cons_of_mem f (List.mem_append_left _ hmid)
      exact SpecArc.span_safe M o arc hp (Part003.safeArcsRaw_spec M o arc hmem)
    · rw [List.mem_singleton] at hmerge
      subst hmerge
      have hfmem : f ∈ Part003.safeArcsRaw M o := by
        rw [hraw]
        exact List.mem_cons_self _ _
      have hlmem : l ∈ Part003.safeArcsRaw M o := by
        rw [hraw]
        exact List.mem_cons_of_mem f (List.mem_append_right _ (by simp))
      have hfspec := Part003.safeArcsRaw_spec M o f hfmem
      have hlspec := Part003.safeArcsRaw_spec M o l hlmem
      have hflen0 : 0 ≤ f.length := (SpecArc.span_safe M o f hp hfspec).1
      have hllen0 : 0 ≤ l.length := (SpecArc.span_safe M o l hp hlspec).1
      obtain ⟨af, bf, habf, hbf180, hfstart, hfstop, hflen, hfctx⟩ := hfspec
      obtain ⟨al, bl, habl, hbl180, hlstart, hlstop, hllen, hlctx⟩ := hlspec
      have haf0 : af = 0 := by
        have hzero : sampleAngle M af = 0 := by rw [← hfstart, hf0]
        by_contra hne
        have h1 : sampleAngle M 0 < sampleAngle M af :=
          (sampleAngle_lt_iff M hp).mpr (by omega)
        rw [sampleAngle_zero] at h1
        linarith
      have hbl : bl = 180 := by
        have heq : sampleAngle M bl = sampleAngle M 180 := by
          rw [← hlstop, hl2p, sampleAngle_numSamples]
        by_contra hne
        rcases Nat.lt_or_ge bl 180 with hlt | hge
        · have := (sampleAngle_lt_iff M hp).mpr hlt
          linarith
        · have h180bl : (180 : ℕ) < bl := by omega
          have := (sampleAngle_lt_iff M hp).mpr h180bl
          linarith
      constructor
      · show 0 ≤ l.length + f.length
        linarith
      · intro i hi hin
        dsimp only [inSpanMod] at hin
        rcases hin with ⟨h1, h2⟩ | ⟨h1, h2⟩
        · have h1' : sampleAngle M al ≤ sampleAngle M i := by
            rw [← hlstart]
            exact h1
          have hali : al ≤ i := (sampleAngle_le_iff M hp).mp h1'
          have hsafe := hlctx i hali (by omega)
          simp only [sampleSafe, numAngleSamples, Bool.and_eq_true, decide_eq_true_eq]
            at hsafe
          exact hsafe.2
        · rw [hfstop] at h2
          have hibf : i < bf := by
            have hlt : sampleAngle M i < sampleAngle M bf := by linarith
            exact (sampleAngle_lt_iff M hp).mp hlt
          have hsafe := hfctx i (by omega) hibf
          simp only [sampleSafe, numAngleSamples, Bool.and_eq_true, decide_eq_true_eq]
            at hsafe
          exact hsafe.2
  · rw [Bool.not_eq_true] at hguard
    have heq : Part003.safeArcs M o = Part003.safeArcsRaw M o :=
      Part003.mergeWraparound_eq_self M o _ hguard
    rw [heq] at harc
    exact SpecArc.span_safe M o arc hp (Part003.safeArcsRaw_spec M o arc harc)

/-- C1 (amended): edge avoidance holds at sampling resolution.  For any
`Math` model with positive `π`, (a) the safety predicate at an angle is
exactly the claim's bounding-box-in-viewport property of the item placed
at that angle, and (b) every position returned by the placement
computation has its angle of the form `θ % 2π` with `θ` in the tolerant
span `[start, start + length + 1e-4)` of a discovered safe arc, and
every sampled angle in a discovered arc's span (mod 2π) is safe.  The
claim as stated — every returned box inside the viewport — fails between
samples (see the counterexample): the returned angles are interpolated
inside arcs whose safety was only checked at the 2° samples. -/
theorem claim_C1_amended (M : JsMath) (o : RepulsionOrbitOptions) (hp : 0 < M.PI) :
    (∀ θ : ℚ, isAngleSafe M o θ = true ↔ insideViewport o (mkItemPosition M o θ)) ∧
    ∀ pos ∈ Part003.calculatedPositions M o,
      ∃ arc ∈ Part003.safeArcs M o,
        (∃ θ : ℚ, arc.start ≤ θ ∧ θ < arc.start + arc.length + 1 / 10000 ∧
          pos.angle = jsMod θ (2 * M.PI)) ∧
        ∀ i : ℕ, i < 180 → inSpanMod (2 * M.PI) arc (sampleAngle M i) →
          isAngleSafe M o (sampleAngle M i) = true := by
  refine ⟨isAngleSafe_iff_insideViewport M o, ?_⟩
  intro pos hpos
  simp only [Part003.calculatedPositions] at hpos
  split at hpos
  · exact absurd hpos (List.not_mem_nil pos)
  · split at hpos
    · exact absurd hpos (List.not_mem_nil pos)
    · split at hpos
      · exact absurd hpos (List.not_mem_nil pos)
      · rw [List.mem_insertionSort] at hpos
        have hlen : ∀ arc ∈ List.insertionSort arcStartLE (Part003.safeArcs M o),
            0 ≤ arc.length := fun arc h =>
          (Part003.safeArcs_span M o hp arc
            (by rw [List.mem_insertionSort] at h; exact h)).1
        obtain ⟨arc, hmem, θ, h1, h2, h3⟩ :=
          Part003.positionsList_mem_spec M o _ _ hlen pos hpos
        have hmem' : arc ∈ Part003.safeArcs M o := by
          rw [List.mem_insertionSort] at hmem
          exact hmem
        exact ⟨arc, hmem', ⟨θ, h1, h2, h3⟩,
          fun i hi hin => (Part003.safeArcs_span M o hp arc hmem').2 i hi hin⟩

/-- C1 (witness): the amended statement instantiated in the reference
scenario with `flatMath`. -/
theorem claim_C1_witness :
    (∀ θ : ℚ, isAngleSafe flatMath scenarioOpts θ = true ↔
      insideViewport scenarioOpts (mkItemPosition flatMath scenarioOpts θ)) ∧
    ∀ pos ∈ Part003.calculatedPositions flatMath scenarioOpts,
      ∃ arc ∈ Part003.safeArcs flatMath scenarioOpts,
        (∃ θ : ℚ, arc.start ≤ θ ∧ θ < arc.start + arc.length + 1 / 10000 ∧
          pos.angle = jsMod θ (2 * flatMath.PI)) ∧
        ∀ i : ℕ, i < 180 → inSpanMod (2 * flatMath.PI) arc (sampleAngle flatMath i) →
          isAngleSafe flatMath scenarioOpts (sampleAngle flatMath i) = true :=
  claim_C1_amended flatMath scenarioOpts (by norm_num [flatMath])

/-- C1 (counterexample): with the bounded `sliverMath` model (its sine
dips to -1 in the unsampled sliver at `π/7`) and the menu near the
top-left corner, all 180 samples are safe, yet the placement returns an
item at the unsampled angle `π/7 = 22/49` whose bounding box extends 92
pixels above the viewport — refuting the claim as stated. -/
theorem claim_C1_counterexample :
    sliverMath.Bounded ∧ 3 < sliverMath.PI ∧ sliverMath.PI < 4 ∧
    sliverOpts.isOpen = true ∧ 0 < sliverOpts.orbitRadius ∧
    1 ≤ sliverOpts.numItems ∧ sliverOpts.numItems ≤ 20 ∧
    ∃ p ∈ Part003.calculatedPositions sliverMath sliverOpts,
      ¬ insideViewport sliverOpts p := by
  refine ⟨sliverMath_bounded, by norm_num [sliverMath], by norm_num [sliverMath], rfl,
    by norm_num [sliverOpts], by norm_num [sliverOpts], by norm_num [sliverOpts], ?_⟩
  rw [show Part003.calculatedPositions sliverMath sliverOpts =
    [⟨0, -100, 22 / 49⟩, ⟨0, 0, 66 / 49⟩, ⟨0, 0, 110 / 49⟩, ⟨0, 0, 22 / 7⟩,
      ⟨0, 0, 198 / 49⟩, ⟨0, 0, 242 / 49⟩, ⟨0, 0, 286 / 49⟩] from by with_unfolding_all rfl]
  refine ⟨⟨0, -100, 22 / 49⟩, by simp, ?_⟩
  intro hin
  obtain ⟨h1, h2, h3, h4⟩ := hin
  norm_num [mainButtonCenterY, sliverOpts] at h3
